import Mathlib

/-!
# memos: the root command's `Run` function and the store `Driver` interface

Two source files are embedded.

* `cmd/memos.go`: the body of `rootCmd.Run` (lines 45-90) is a main thread plus one
  goroutine (the signal handler of lines 72-77).  Both are embedded as program counters
  named after the source lines, with a step function per thread; an execution is a
  schedule (a list of labels saying which thread moves, or that the operating system
  delivers a signal) folded over the step function.  Results of the external calls
  (`db.NewDBDriver`, `dbDriver.Migrate`, `server.NewServer`, `s.Start`) are supplied by an
  environment record.  The bodies of these calls, panics, and the exit of the process
  after `Run` has returned are outside the embedding: a call is one step (two for the
  blocking `s.Start` and `s.Shutdown`, entry and return), and the goroutine may still be
  scheduled after the main thread has returned.
* `store/driver.go`: the `Driver` interface is embedded as the list of its method
  declarations, each with its section comment, name, parameter types and result types.
-/

namespace Memos
namespace Cmd

/-! ## The `Run` function of `cmd/memos.go` -/

/-- What `s.Start(ctx)` hands back, as far as lines 81-82 distinguish it:
`nil`, `http.ErrServerClosed`, or any other error. -/
inductive StartResult
  | nil
  | errServerClosed
  | otherErr
  deriving DecidableEq, Repr

/-- The results of the external calls made by `Run`.  `true` means a non-nil error. -/
structure Env where
  newDBDriverErr : Bool
  migrateErr : Bool
  newServerErr : Bool
  startResult : StartResult
  deriving DecidableEq, Repr

/-- The two signals registered on line 71: `os.Interrupt` and `syscall.SIGTERM`. -/
inductive Signal
  | interrupt
  | sigterm
  deriving DecidableEq, Repr

/-- The main thread running `Run`, or the goroutine of lines 72-77. -/
inductive Thread
  | main
  | handler
  deriving DecidableEq, Repr

/-- Observable events, one per executed statement (source line in the comment). -/
inductive Event
  | withCancel                      -- 46: ctx, cancel := context.WithCancel(...)
  | newDBDriver (failed : Bool)     -- 47: db.NewDBDriver(profile)
  | migrate (failed : Bool)         -- 53: dbDriver.Migrate(ctx)
  | storeNew                        -- 59: store.New(dbDriver, profile)
  | newServer (failed : Bool)       -- 60: server.NewServer(ctx, profile, store)
  | makeChan                        -- 67: c := make(chan os.Signal, 1)
  | signalNotify                    -- 71: signal.Notify(c, os.Interrupt, syscall.SIGTERM)
  | goHandler                       -- 72: go func() ...
  | printGreetings                  -- 79
  | startCall                       -- 81: s.Start(ctx) is entered
  | startRet (r : StartResult)      -- 81: s.Start(ctx) returns
  | logError (msg : String)         -- 50, 55, 63, 83
  | cancel (who : Thread)           -- 49, 54, 62, 84 (main); 76 (handler)
  | waitReleased                    -- 89: <-ctx.Done() completes
  | ret                             -- 51, 56, 64, 90: Run returns
  | deliver (sig : Signal)          -- the runtime places a signal in channel c
  | recv (sig : Signal)             -- 73: sig := <-c
  | logInfo (sig : Signal)          -- 74
  | shutdownCall                    -- 75: s.Shutdown(ctx) is entered
  | shutdownRet                     -- 75: s.Shutdown(ctx) returns
  deriving DecidableEq, Repr

/-- Program counter of the main thread: the source line about to be executed.
`inStart` is the time spent inside `s.Start(ctx)`; `returned` is after `Run` has returned. -/
inductive MainPC
  | l46 | l47 | l49 | l50 | l51 | l53 | l54 | l55 | l56 | l59 | l60 | l62 | l63 | l64
  | l67 | l71 | l72 | l79 | l81 | inStart | l83 | l84 | l89 | l90 | returned
  deriving DecidableEq, Repr

/-- Program counter of the goroutine of lines 72-77.  `notStarted` is before the `go`
statement, `inShutdown` the time spent inside `s.Shutdown(ctx)`. -/
inductive HandlerPC
  | notStarted | l73 | l74 | l75 | inShutdown | l76 | finished
  deriving DecidableEq, Repr

/-- Joint state of the two threads.  `log` holds the events so far, newest first. -/
structure State where
  main : MainPC
  handler : HandlerPC
  /-- True once `cancel()` has been called, i.e. `ctx.Done()` is closed. -/
  done : Bool
  /-- True once `signal.Notify` has registered the channel `c`. -/
  notified : Bool
  /-- Content of the channel `c`, whose capacity is 1. -/
  chan : Option Signal
  /-- The local variable `sig` of the goroutine. -/
  sig : Option Signal
  /-- Events so far, newest first. -/
  log : List Event
  deriving DecidableEq, Repr

/-- State at the entry of `Run`. -/
def init : State :=
  { main := .l46, handler := .notStarted, done := false, notified := false,
    chan := none, sig := none, log := [] }

/-- One statement of the main thread (lines 46-90).  `none`: the thread cannot move
(blocked on `<-ctx.Done()`, or already returned). -/
def stepMain (env : Env) (s : State) : Option State :=
  match s.main with
  | .l46 => some { s with main := .l47, log := .withCancel :: s.log }
  | .l47 =>
    some { s with main := if env.newDBDriverErr then .l49 else .l53,
                  log := .newDBDriver env.newDBDriverErr :: s.log }
  | .l49 => some { s with main := .l50, done := true, log := .cancel .main :: s.log }
  | .l50 => some { s with main := .l51, log := .logError "failed to create db driver" :: s.log }
  | .l51 => some { s with main := .returned, log := .ret :: s.log }
  | .l53 =>
    some { s with main := if env.migrateErr then .l54 else .l59,
                  log := .migrate env.migrateErr :: s.log }
  | .l54 => some { s with main := .l55, done := true, log := .cancel .main :: s.log }
  | .l55 => some { s with main := .l56, log := .logError "failed to migrate db" :: s.log }
  | .l56 => some { s with main := .returned, log := .ret :: s.log }
  | .l59 => some { s with main := .l60, log := .storeNew :: s.log }
  | .l60 =>
    some { s with main := if env.newServerErr then .l62 else .l67,
                  log := .newServer env.newServerErr :: s.log }
  | .l62 => some { s with main := .l63, done := true, log := .cancel .main :: s.log }
  | .l63 => some { s with main := .l64, log := .logError "failed to create server" :: s.log }
  | .l64 => some { s with main := .returned, log := .ret :: s.log }
  | .l67 => some { s with main := .l71, chan := none, log := .makeChan :: s.log }
  | .l71 => some { s with main := .l72, notified := true, log := .signalNotify :: s.log }
  | .l72 => some { s with main := .l79, handler := .l73, log := .goHandler :: s.log }
  | .l79 => some { s with main := .l81, log := .printGreetings :: s.log }
  | .l81 => some { s with main := .inStart, log := .startCall :: s.log }
  | .inStart =>
    some { s with
      main := match env.startResult with
        | .nil => .l89
        | .errServerClosed => .l89
        | .otherErr => .l83,
      log := .startRet env.startResult :: s.log }
  | .l83 => some { s with main := .l84, log := .logError "failed to start server" :: s.log }
  | .l84 => some { s with main := .l89, done := true, log := .cancel .main :: s.log }
  | .l89 => if s.done then some { s with main := .l90, log := .waitReleased :: s.log } else none
  | .l90 => some { s with main := .returned, log := .ret :: s.log }
  | .returned => none

/-- One statement of the goroutine (lines 73-76).  `none`: it cannot move (not started,
blocked on the empty channel, or finished). -/
def stepHandler (s : State) : Option State :=
  match s.handler with
  | .notStarted => none
  | .l73 =>
    match s.chan with
    | none => none
    | some sg => some { s with handler := .l74, chan := none, sig := some sg, log := .recv sg :: s.log }
  | .l74 =>
    match s.sig with
    | none => none
    | some sg => some { s with handler := .l75, log := .logInfo sg :: s.log }
  | .l75 => some { s with handler := .inShutdown, log := .shutdownCall :: s.log }
  | .inShutdown => some { s with handler := .l76, log := .shutdownRet :: s.log }
  | .l76 => some { s with handler := .finished, done := true, log := .cancel .handler :: s.log }
  | .finished => none

/-- The runtime relays a registered signal into `c` without blocking: it is stored when
the buffer has room and dropped otherwise.  Before line 71 the signal is not relayed and
the step is outside the model (`none`). -/
def stepSignal (sg : Signal) (s : State) : Option State :=
  if s.notified then
    match s.chan with
    | none => some { s with chan := some sg, log := .deliver sg :: s.log }
    | some _ => some s
  else none

/-- Who moves next. -/
inductive Label
  | main
  | handler
  | signal (sig : Signal)
  deriving DecidableEq, Repr

/-- One step of the joint system. -/
def step (env : Env) (s : State) : Label → Option State
  | .main => stepMain env s
  | .handler => stepHandler s
  | .signal sg => stepSignal sg s

/-- Run a schedule from a state; `none` when some label of the schedule is not enabled. -/
def run (env : Env) : State → List Label → Option State
  | s, [] => some s
  | s, l :: ls => (step env s l).bind (fun s' => run env s' ls)

/-- An execution of `Run`: a schedule run from the entry state. -/
def exec (env : Env) (sched : List Label) : Option State :=
  run env init sched

/-- In a log (newest first), every occurrence of `b` has an occurrence of `a` before it
in time. -/
def Precedes (a b : Event) : List Event → Prop
  | [] => True
  | e :: older => (e = b → a ∈ older) ∧ Precedes a b older

instance Precedes.instDecidable (a b : Event) : (l : List Event) → Decidable (Precedes a b l)
  | [] => isTrue trivial
  | e :: older =>
    have := Precedes.instDecidable a b older
    inferInstanceAs (Decidable ((e = b → a ∈ older) ∧ Precedes a b older))

/-- In a log (newest first), no occurrence of `b` has an occurrence of `a` before it in
time. -/
def NeverBefore (a b : Event) : List Event → Prop
  | [] => True
  | e :: older => (e = b → a ∉ older) ∧ NeverBefore a b older

instance NeverBefore.instDecidable (a b : Event) :
    (l : List Event) → Decidable (NeverBefore a b l)
  | [] => isTrue trivial
  | e :: older =>
    have := NeverBefore.instDecidable a b older
    inferInstanceAs (Decidable ((e = b → a ∉ older) ∧ NeverBefore a b older))



/-! ### Bookkeeping for the proofs: what each thread has logged at each program counter -/

/-- Events logged by the main thread. -/
def isMainEvent : Event → Bool
  | .withCancel | .newDBDriver _ | .migrate _ | .storeNew | .newServer _ | .makeChan
  | .signalNotify | .goHandler | .printGreetings | .startCall | .startRet _ | .logError _
  | .cancel .main | .waitReleased | .ret => true
  | _ => false

/-- Events logged by the goroutine. -/
def isHandlerEvent : Event → Bool
  | .recv _ | .logInfo _ | .shutdownCall | .shutdownRet | .cancel .handler => true
  | _ => false

/-- Main-thread events up to and including line 81's call of `s.Start`, newest first. -/
def histToStart : List Event :=
  [.startCall, .printGreetings, .goHandler, .signalNotify, .makeChan, .newServer false,
   .storeNew, .migrate false, .newDBDriver false, .withCancel]

/-- Main-thread events once line 89 is reached, by the result of `s.Start`. -/
def histAt89 : StartResult → List Event
  | .otherErr =>
    .cancel .main :: .logError "failed to start server" :: .startRet .otherErr :: histToStart
  | r => .startRet r :: histToStart

/-- The events the main thread has logged when it stands at a program counter (newest
first).  At `returned` the path taken is read off the environment. -/
def mainHist (env : Env) : MainPC → List Event
  | .l46 => []
  | .l47 => [.withCancel]
  | .l49 => [.newDBDriver true, .withCancel]
  | .l50 => [.cancel .main, .newDBDriver true, .withCancel]
  | .l51 => [.logError "failed to create db driver", .cancel .main, .newDBDriver true,
             .withCancel]
  | .l53 => [.newDBDriver false, .withCancel]
  | .l54 => [.migrate true, .newDBDriver false, .withCancel]
  | .l55 => [.cancel .main, .migrate true, .newDBDriver false, .withCancel]
  | .l56 => [.logError "failed to migrate db", .cancel .main, .migrate true,
             .newDBDriver false, .withCancel]
  | .l59 => histToStart.drop 7
  | .l60 => histToStart.drop 6
  | .l62 => .newServer true :: histToStart.drop 6
  | .l63 => .cancel .main :: .newServer true :: histToStart.drop 6
  | .l64 => .logError "failed to create server" :: .cancel .main :: .newServer true
             :: histToStart.drop 6
  | .l67 => histToStart.drop 5
  | .l71 => histToStart.drop 4
  | .l72 => histToStart.drop 3
  | .l79 => histToStart.drop 2
  | .l81 => histToStart.drop 1
  | .inStart => histToStart
  | .l83 => .startRet .otherErr :: histToStart
  | .l84 => .logError "failed to start server" :: .startRet .otherErr :: histToStart
  | .l89 => histAt89 env.startResult
  | .l90 => .waitReleased :: histAt89 env.startResult
  | .returned =>
    if env.newDBDriverErr then
      [.ret, .logError "failed to create db driver", .cancel .main, .newDBDriver true,
       .withCancel]
    else if env.migrateErr then
      [.ret, .logError "failed to migrate db", .cancel .main, .migrate true,
       .newDBDriver false, .withCancel]
    else if env.newServerErr then
      .ret :: .logError "failed to create server" :: .cancel .main :: .newServer true
        :: histToStart.drop 6
    else .ret :: .waitReleased :: histAt89 env.startResult

/-- The environment agrees with the branch the main thread is on. -/
def pathOK (env : Env) : MainPC → Bool
  | .l46 | .l47 | .returned => true
  | .l49 | .l50 | .l51 => env.newDBDriverErr
  | .l53 => !env.newDBDriverErr
  | .l54 | .l55 | .l56 => !env.newDBDriverErr && env.migrateErr
  | .l59 | .l60 => !env.newDBDriverErr && !env.migrateErr
  | .l62 | .l63 | .l64 => !env.newDBDriverErr && !env.migrateErr && env.newServerErr
  | .l67 | .l71 | .l72 | .l79 | .l81 | .inStart | .l89 | .l90 =>
    !env.newDBDriverErr && !env.migrateErr && !env.newServerErr
  | .l83 | .l84 =>
    !env.newDBDriverErr && !env.migrateErr && !env.newServerErr
      && decide (env.startResult = .otherErr)

/-- The events the goroutine has logged when it stands at a program counter (newest
first), given its local variable `sig`. -/
def handlerHist : Option Signal → HandlerPC → List Event
  | _, .notStarted => []
  | _, .l73 => []
  | some sg, .l74 => [.recv sg]
  | some sg, .l75 => [.logInfo sg, .recv sg]
  | some sg, .inShutdown => [.shutdownCall, .logInfo sg, .recv sg]
  | some sg, .l76 => [.shutdownRet, .shutdownCall, .logInfo sg, .recv sg]
  | some sg, .finished => [.cancel .handler, .shutdownRet, .shutdownCall, .logInfo sg, .recv sg]
  | none, _ => []

/-- Invariant of every reachable state: each thread's share of the log is determined by
its program counter, and the context is cancelled exactly when some `cancel()` is logged. -/
structure Inv (env : Env) (s : State) : Prop where
  path : pathOK env s.main = true
  mainLog : s.log.filter isMainEvent = mainHist env s.main
  handlerLog : s.log.filter isHandlerEvent = handlerHist s.sig s.handler
  sigSet : s.handler = .notStarted ∨ s.handler = .l73 ∨ s.sig.isSome = true
  spawned : s.handler ≠ .notStarted → Event.goHandler ∈ s.log
  doneIff : s.done = true ↔ (Event.cancel .main ∈ s.log ∨ Event.cancel .handler ∈ s.log)
  waited : Event.waitReleased ∈ s.log → s.done = true
  shutdownFirst : env.startResult ≠ .otherErr → Precedes .shutdownRet .waitReleased s.log

end Cmd

namespace Store

/-! ## The `Driver` interface of `store/driver.go` -/

/-- Go type expressions.  `driver.go` uses the first four forms; `map` is there so that
"the result is a mapping" can be said of a signature. -/
inductive GoType
  | named (name : String)              -- Activity, FindActivity, int32, string, error
  | qualified (pkg name : String)      -- context.Context, sql.DB, storepb.UserSetting
  | pointer (elem : GoType)            -- *T
  | slice (elem : GoType)              -- []T
  | map (key value : GoType)           -- map[K]V
  deriving DecidableEq, Repr

/-- A declared parameter: its name and its type. -/
structure Param where
  name : String
  type : GoType
  deriving DecidableEq, Repr

/-- One method declaration of the interface.  `model` is the model named by the section
comment above it ("// Activity model related methods."), `none` for the methods of lines
13-18, which stand under no such comment. -/
structure Method where
  model : Option String
  name : String
  params : List Param
  results : List GoType
  deriving DecidableEq, Repr

/-- The type `context.Context`. -/
def ctxT : GoType := .qualified "context" "Context"

/-- The type `error`. -/
def errT : GoType := .named "error"

/-- The parameter `ctx context.Context`, first parameter of every operation. -/
def ctxP : Param := ⟨"ctx", ctxT⟩

/-- The type `*T` for a type `T` of package `store`. -/
def ptr (n : String) : GoType := .pointer (.named n)

/-- The type `[]*T` for a type `T` of package `store`. -/
def ptrs (n : String) : GoType := .slice (.pointer (.named n))

/-- The interface `Driver`, lines 12-81 of `store/driver.go`, in source order. -/
def Driver : List Method :=
  [ ⟨none, "GetDB", [], [.pointer (.qualified "sql" "DB")]⟩,
    ⟨none, "Close", [], [errT]⟩,
    ⟨none, "Migrate", [ctxP], [errT]⟩,
    ⟨none, "Vacuum", [ctxP], [errT]⟩,
    ⟨none, "BackupTo", [ctxP, ⟨"filename", .named "string"⟩], [errT]⟩,
    -- Activity model related methods.
    ⟨some "Activity", "CreateActivity", [ctxP, ⟨"create", ptr "Activity"⟩],
      [ptr "Activity", errT]⟩,
    ⟨some "Activity", "ListActivity", [ctxP, ⟨"find", ptr "FindActivity"⟩],
      [ptrs "Activity", errT]⟩,
    -- Resource model related methods.
    ⟨some "Resource", "CreateResource", [ctxP, ⟨"create", ptr "Resource"⟩],
      [ptr "Resource", errT]⟩,
    ⟨some "Resource", "ListResources", [ctxP, ⟨"find", ptr "FindResource"⟩],
      [ptrs "Resource", errT]⟩,
    ⟨some "Resource", "UpdateResource", [ctxP, ⟨"update", ptr "UpdateResource"⟩],
      [ptr "Resource", errT]⟩,
    ⟨some "Resource", "DeleteResource", [ctxP, ⟨"delete", ptr "DeleteResource"⟩], [errT]⟩,
    -- Memo model related methods.
    ⟨some "Memo", "CreateMemo", [ctxP, ⟨"create", ptr "Memo"⟩], [ptr "Memo", errT]⟩,
    ⟨some "Memo", "ListMemos", [ctxP, ⟨"find", ptr "FindMemo"⟩], [ptrs "Memo", errT]⟩,
    ⟨some "Memo", "UpdateMemo", [ctxP, ⟨"update", ptr "UpdateMemo"⟩], [errT]⟩,
    ⟨some "Memo", "DeleteMemo", [ctxP, ⟨"delete", ptr "DeleteMemo"⟩], [errT]⟩,
    ⟨some "Memo", "FindMemosVisibilityList", [ctxP, ⟨"memoIDs", .slice (.named "int32")⟩],
      [.slice (.named "Visibility"), errT]⟩,
    -- MemoRelation model related methods.
    ⟨some "MemoRelation", "UpsertMemoRelation", [ctxP, ⟨"create", ptr "MemoRelation"⟩],
      [ptr "MemoRelation", errT]⟩,
    ⟨some "MemoRelation", "ListMemoRelations", [ctxP, ⟨"find", ptr "FindMemoRelation"⟩],
      [ptrs "MemoRelation", errT]⟩,
    ⟨some "MemoRelation", "DeleteMemoRelation", [ctxP, ⟨"delete", ptr "DeleteMemoRelation"⟩],
      [errT]⟩,
    -- MemoOrganizer model related methods.
    ⟨some "MemoOrganizer", "UpsertMemoOrganizer", [ctxP, ⟨"upsert", ptr "MemoOrganizer"⟩],
      [ptr "MemoOrganizer", errT]⟩,
    ⟨some "MemoOrganizer", "ListMemoOrganizer", [ctxP, ⟨"find", ptr "FindMemoOrganizer"⟩],
      [ptrs "MemoOrganizer", errT]⟩,
    ⟨some "MemoOrganizer", "DeleteMemoOrganizer",
      [ctxP, ⟨"delete", ptr "DeleteMemoOrganizer"⟩], [errT]⟩,
    -- SystemSetting model related methods.
    ⟨some "SystemSetting", "UpsertSystemSetting", [ctxP, ⟨"upsert", ptr "SystemSetting"⟩],
      [ptr "SystemSetting", errT]⟩,
    ⟨some "SystemSetting", "ListSystemSettings", [ctxP, ⟨"find", ptr "FindSystemSetting"⟩],
      [ptrs "SystemSetting", errT]⟩,
    -- User model related methods.
    ⟨some "User", "CreateUser", [ctxP, ⟨"create", ptr "User"⟩], [ptr "User", errT]⟩,
    ⟨some "User", "UpdateUser", [ctxP, ⟨"update", ptr "UpdateUser"⟩], [ptr "User", errT]⟩,
    ⟨some "User", "ListUsers", [ctxP, ⟨"find", ptr "FindUser"⟩], [ptrs "User", errT]⟩,
    ⟨some "User", "DeleteUser", [ctxP, ⟨"delete", ptr "DeleteUser"⟩], [errT]⟩,
    -- UserSetting model related methods.
    ⟨some "UserSetting", "UpsertUserSetting", [ctxP, ⟨"upsert", ptr "UserSetting"⟩],
      [ptr "UserSetting", errT]⟩,
    ⟨some "UserSetting", "ListUserSettings", [ctxP, ⟨"find", ptr "FindUserSetting"⟩],
      [ptrs "UserSetting", errT]⟩,
    ⟨some "UserSetting", "UpsertUserSettingV1",
      [ctxP, ⟨"upsert", .pointer (.qualified "storepb" "UserSetting")⟩],
      [.pointer (.qualified "storepb" "UserSetting"), errT]⟩,
    ⟨some "UserSetting", "ListUserSettingsV1", [ctxP, ⟨"find", ptr "FindUserSettingV1"⟩],
      [.slice (.pointer (.qualified "storepb" "UserSetting")), errT]⟩,
    -- IdentityProvider model related methods.
    ⟨some "IdentityProvider", "CreateIdentityProvider",
      [ctxP, ⟨"create", ptr "IdentityProvider"⟩], [ptr "IdentityProvider", errT]⟩,
    ⟨some "IdentityProvider", "ListIdentityProviders",
      [ctxP, ⟨"find", ptr "FindIdentityProvider"⟩], [ptrs "IdentityProvider", errT]⟩,
    ⟨some "IdentityProvider", "GetIdentityProvider",
      [ctxP, ⟨"find", ptr "FindIdentityProvider"⟩], [ptr "IdentityProvider", errT]⟩,
    ⟨some "IdentityProvider", "UpdateIdentityProvider",
      [ctxP, ⟨"update", ptr "UpdateIdentityProvider"⟩], [ptr "IdentityProvider", errT]⟩,
    ⟨some "IdentityProvider", "DeleteIdentityProvider",
      [ctxP, ⟨"delete", ptr "DeleteIdentityProvider"⟩], [errT]⟩,
    -- Tag model related methods.
    ⟨some "Tag", "UpsertTag", [ctxP, ⟨"upsert", ptr "Tag"⟩], [ptr "Tag", errT]⟩,
    ⟨some "Tag", "ListTags", [ctxP, ⟨"find", ptr "FindTag"⟩], [ptrs "Tag", errT]⟩,
    ⟨some "Tag", "DeleteTag", [ctxP, ⟨"delete", ptr "DeleteTag"⟩], [errT]⟩,
    -- Storage model related methods.
    ⟨some "Storage", "CreateStorage", [ctxP, ⟨"create", ptr "Storage"⟩],
      [ptr "Storage", errT]⟩,
    ⟨some "Storage", "ListStorages", [ctxP, ⟨"find", ptr "FindStorage"⟩],
      [ptrs "Storage", errT]⟩,
    ⟨some "Storage", "GetStorage", [ctxP, ⟨"find", ptr "FindStorage"⟩],
      [ptr "Storage", errT]⟩,
    ⟨some "Storage", "UpdateStorage", [ctxP, ⟨"update", ptr "UpdateStorage"⟩],
      [ptr "Storage", errT]⟩,
    ⟨some "Storage", "DeleteStorage", [ctxP, ⟨"delete", ptr "DeleteStorage"⟩], [errT]⟩ ]

/-- The kinds of operation the method names of the interface begin with. -/
inductive OpKind
  | create | list | update | delete | upsert | get
  deriving DecidableEq, Repr

/-- Whether the characters of `p` begin `s`. -/
def startsWith (p s : String) : Bool := p.toList.isPrefixOf s.toList

/-- Whether the characters of `p` end `s`. -/
def endsWith (p s : String) : Bool := p.toList.reverse.isPrefixOf s.toList.reverse

/-- The operation kind a method name begins with, if any. -/
def kindOfName (n : String) : Option OpKind :=
  if startsWith "Create" n then some .create
  else if startsWith "List" n then some .list
  else if startsWith "Update" n then some .update
  else if startsWith "Delete" n then some .delete
  else if startsWith "Upsert" n then some .upsert
  else if startsWith "Get" n then some .get
  else none

/-- The operation kind of a method. -/
def Method.kind (m : Method) : Option OpKind := kindOfName m.name

/-- The first declared method of the interface with a given name. -/
def findMethod (n : String) : Option Method := Driver.find? (fun m => m.name == n)

/-- The methods declared under a model's section comment. -/
def methodsOf (model : String) : List Method :=
  Driver.filter (fun m => m.model == some model)

/-- The methods of an operation kind. -/
def methodsOfKind (k : OpKind) : List Method :=
  Driver.filter (fun m => m.kind == some k)

/-- The name of the type a type expression is built on (`*T`, `[]T`, `[]*T` give `T`,
`pkg.T` gives `T`); a map type has none. -/
def baseName : GoType → Option String
  | .named n => some n
  | .qualified _ n => some n
  | .pointer t => baseName t
  | .slice t => baseName t
  | .map _ _ => none

/-- All the type expressions of a signature, parameters first. -/
def Method.types (m : Method) : List GoType := m.params.map (·.type) ++ m.results

/-- Whether a method has a parameter or a result built on a type whose name ends in
`entity`: the record `Activity` itself or a descriptor `FindActivity`, `UpdateActivity`,
`DeleteActivity`. -/
def Method.concerns (entity : String) (m : Method) : Bool :=
  m.types.any (fun t => match baseName t with
    | some n => endsWith entity n
    | none => false)

/-- A type expression with the entity-specific names erased: `context.Context` and
`error` stay, every other type name becomes `_`. -/
def eraseNames : GoType → GoType
  | .named n => if n = "error" then .named "error" else .named "_"
  | .qualified p n =>
    if p = "context" ∧ n = "Context" then .qualified "context" "Context" else .named "_"
  | .pointer t => .pointer (eraseNames t)
  | .slice t => .slice (eraseNames t)
  | .map k v => .map (eraseNames k) (eraseNames v)

/-- The shape of a signature up to the entity type: parameter types and result types
with the entity-specific names erased. -/
def Method.shape (m : Method) : List GoType × List GoType :=
  (m.params.map (fun p => eraseNames p.type), m.results.map eraseNames)

/-- All operations of a kind have one and the same signature shape. -/
def Uniform (k : OpKind) : Prop :=
  ∀ m₁ ∈ methodsOfKind k, ∀ m₂ ∈ methodsOfKind k, m₁.shape = m₂.shape

/-- The models for which the interface declares an Upsert operation, in source order,
each once. -/
def upsertModels : List String :=
  ((methodsOfKind .upsert).filterMap (·.model)).eraseDups

/-- Follows the spec's words (section 4.1, `Upsert`): "used for SystemSetting,
UserSetting, Tag, MemoOrganizer, MemoRelation".  The phrase that ends that list,
"IdentityProvider-adjacent configuration-style entities", names no entity of the data
model and is left out. -/
def specUpsertKeyed : List String :=
  ["SystemSetting", "UserSetting", "Tag", "MemoOrganizer", "MemoRelation"]

/-! ## The visibility lookup

The backend implementations of the interface (package `store/db`) and the declarations of
the types `Visibility` and `Memo` (package `store`) are not among the source files; the
lookup is taken from the specification, in the result type that `driver.go` declares. -/

/-- Modelled from the spec: the type `Visibility` of package `store`, whose declaration
is not among the source files.  Section 3: "visibility {private, protected, public}". -/
inductive Visibility
  | vPrivate
  | vProtected
  | vPublic
  deriving DecidableEq, Repr

/-- Modelled from the spec: the columns of a Memo row that the lookup reads (section 3):
id and visibility.  The record type `Memo` is not among the source files. -/
structure MemoRow where
  id : Int
  visibility : Visibility
  deriving DecidableEq, Repr

/-- Modelled from the spec: the backend's `FindMemosVisibilityList`, which is not among
the source files, in the result type that line 35 of `driver.go` declares,
`([]Visibility, error)`.  Section 4.1: "batch lookup returning each memo's current
visibility"; section 8: "omitting unknown ids rather than erroring".  The rows of the
memo table whose id is among the given ids each give their visibility; no input is an
error. -/
def findMemosVisibilityList (memos : List MemoRow) (memoIDs : List Int) :
    Except String (List Visibility) :=
  .ok ((memos.filter (fun m => memoIDs.contains m.id)).map (·.visibility))

/-- Follows the spec's words (section 8): "a mapping covering exactly the existing ids,
omitting unknown ids": the pairs of a memo id and that memo's current visibility, for
the given ids that exist. -/
def visibilityMapping (memos : List MemoRow) (memoIDs : List Int) :
    List (Int × Visibility) :=
  (memos.filter (fun m => memoIDs.contains m.id)).map (fun m => (m.id, m.visibility))

/-! ## Upsert on a keyed table

The backend implementations of the interface (package `store/db`) are not among the
source files; what an `Upsert` does to a table is taken from the specification. -/

/-- Modelled from the spec: the backend's `Upsert` statement, which is not among the
source files.  Section 4.1: "insert-or-update keyed by the entity's natural unique key,
atomically"; section 4.2: "insert with update-on-conflict".  A row whose key equals the
record's key is overwritten by the record; when there is none the record is inserted. -/
def upsert {Row Key : Type} [DecidableEq Key] (key : Row → Key) (r : Row)
    (table : List Row) : List Row :=
  if table.any (fun x => decide (key x = key r)) then
    table.map (fun x => if key x = key r then r else x)
  else table ++ [r]

/-- The rows of a table that carry a given key. -/
def rowsWithKey {Row Key : Type} [DecidableEq Key] (key : Row → Key) (k : Key)
    (table : List Row) : List Row :=
  table.filter (fun x => decide (key x = k))

/-- Modelled from the spec: the unique index on the natural key (section 3, "unique"),
which the backend enforces at the statement level (section 4.2): no two rows of a table
carry the same key. -/
def UniqueKeys {Row Key : Type} (key : Row → Key) (table : List Row) : Prop :=
  (table.map key).Nodup

instance UniqueKeys.instDecidable {Row Key : Type} [DecidableEq Key] (key : Row → Key)
    (table : List Row) : Decidable (UniqueKeys key table) :=
  inferInstanceAs (Decidable (table.map key).Nodup)

/-- Modelled from the spec: row of SystemSetting (section 3): key (unique), value,
description.  The record types of package `store` are not among the source files. -/
structure SystemSetting where
  name : String
  value : String
  description : String
  deriving DecidableEq, Repr

/-- Modelled from the spec: row of UserSetting (section 3): user id, key, value; "(user
id, key) unique". -/
structure UserSetting where
  userID : Int
  key : String
  value : String
  deriving DecidableEq, Repr

/-- Modelled from the spec: row of Tag (section 3): name, creator id; "(name, creator id)
unique". -/
structure Tag where
  name : String
  creatorID : Int
  deriving DecidableEq, Repr

/-- Modelled from the spec: row of MemoOrganizer (section 3): memo id, user id, pinned
flag; "(memo id, user id) unique". -/
structure MemoOrganizer where
  memoID : Int
  userID : Int
  pinned : Bool
  deriving DecidableEq, Repr

/-- Modelled from the spec: the type of a MemoRelation (section 3): reference or
comment. -/
inductive MemoRelationType
  | reference
  | comment
  deriving DecidableEq, Repr

/-- Modelled from the spec: row of MemoRelation (section 3): memo id, related memo id,
type; "(memo id, related memo id, type) unique". -/
structure MemoRelation where
  memoID : Int
  relatedMemoID : Int
  type : MemoRelationType
  deriving DecidableEq, Repr

/-- Natural unique key of SystemSetting: its key (name). -/
def SystemSetting.natKey (r : SystemSetting) : String := r.name

/-- Natural unique key of UserSetting: (user id, key). -/
def UserSetting.natKey (r : UserSetting) : Int × String := (r.userID, r.key)

/-- Natural unique key of Tag: (name, creator id). -/
def Tag.natKey (r : Tag) : String × Int := (r.name, r.creatorID)

/-- Natural unique key of MemoOrganizer: (memo id, user id). -/
def MemoOrganizer.natKey (r : MemoOrganizer) : Int × Int := (r.memoID, r.userID)

/-- Natural unique key of MemoRelation: (memo id, related memo id, type). -/
def MemoRelation.natKey (r : MemoRelation) : Int × Int × MemoRelationType :=
  (r.memoID, r.relatedMemoID, r.type)

/-- The entity named by an Upsert method: its name without the leading `Upsert`. -/
def upsertEntity (m : Method) : String := String.mk (m.name.toList.drop 6)

/-- Two upserts of records with one and the same key, on a table that satisfies the
unique index, leave exactly one row with that key, equal to the second record; the second
upsert inserts no row, and the unique index still holds. -/
def UpsertTwiceKeepsSecond {Row Key : Type} [DecidableEq Key] (key : Row → Key) : Prop :=
  ∀ (table : List Row) (r1 r2 : Row), UniqueKeys key table → key r1 = key r2 →
    rowsWithKey key (key r2) (upsert key r2 (upsert key r1 table)) = [r2]
      ∧ (upsert key r2 (upsert key r1 table)).length = (upsert key r1 table).length
      ∧ UniqueKeys key (upsert key r2 (upsert key r1 table))

end Store

namespace Cmd

/-! ## Theorems about `Run` -/

theorem inv_init (env : Env) : Inv env init := by
  constructor <;> simp [init, pathOK, mainHist, handlerHist, Precedes]

/-- When the main thread stands at line 89 after a `Start` result that is not another
error, a closed `ctx.Done()` means the goroutine has cancelled, hence `Shutdown` has
returned. -/
theorem shutdownRet_of_done_at_l89 {sr : StartResult} {log : List Event}
    {sig : Option Signal} {hpc : HandlerPC} (hsr : sr ≠ .otherErr)
    (hm : log.filter isMainEvent = histAt89 sr)
    (hh : log.filter isHandlerEvent = handlerHist sig hpc)
    (hc : Event.cancel .main ∈ log ∨ Event.cancel .handler ∈ log) :
    Event.shutdownRet ∈ log := by
  have hnm : Event.cancel .main ∉ log := by
    intro h
    have h1 : Event.cancel .main ∈ log.filter isMainEvent := List.mem_filter.2 ⟨h, rfl⟩
    rw [hm] at h1
    cases sr <;> simp [histAt89, histToStart] at h1 hsr
  have hch : Event.cancel .handler ∈ log.filter isHandlerEvent :=
    List.mem_filter.2 ⟨hc.resolve_left hnm, rfl⟩
  have hsd : Event.shutdownRet ∈ log.filter isHandlerEvent := by
    rw [hh] at hch ⊢
    cases sig <;> cases hpc <;> simp [handlerHist] at hch ⊢
  exact (List.mem_filter.1 hsd).1

theorem inv_stepMain {env : Env} {s s' : State} (h : Inv env s)
    (hs : stepMain env s = some s') : Inv env s' := by
  obtain ⟨pc, hpc, done, notified, chan, sig, log⟩ := s
  obtain ⟨nd, mg, ns, sr⟩ := env
  obtain ⟨hp, hm, hh, hsig, hsp, hd, hw, hsf⟩ := h
  simp only at hp hm hh hsig hsp hd hw hsf
  cases pc <;> simp only [stepMain, Option.some.injEq, reduceCtorEq] at hs
  case l47 =>
    subst hs
    cases nd <;> refine ⟨?_, ?_, ?_, ?_, ?_, ?_, ?_, ?_⟩ <;>
      simp_all [pathOK, mainHist, isMainEvent, isHandlerEvent, List.filter_cons, Precedes]
  case l53 =>
    subst hs
    cases mg <;> refine ⟨?_, ?_, ?_, ?_, ?_, ?_, ?_, ?_⟩ <;>
      simp_all [pathOK, mainHist, histToStart, isMainEvent, isHandlerEvent, List.filter_cons, Precedes]
  case l60 =>
    subst hs
    cases ns <;> refine ⟨?_, ?_, ?_, ?_, ?_, ?_, ?_, ?_⟩ <;>
      simp_all [pathOK, mainHist, histToStart, isMainEvent, isHandlerEvent, List.filter_cons, Precedes]
  case inStart =>
    subst hs
    cases sr <;> refine ⟨?_, ?_, ?_, ?_, ?_, ?_, ?_, ?_⟩ <;>
      simp_all [pathOK, mainHist, histAt89, histToStart, isMainEvent, isHandlerEvent,
        List.filter_cons, Precedes]
  case l72 =>
    subst hs
    have hns : hpc = .notStarted := by
      by_contra hne
      have h1 : Event.goHandler ∈ log.filter isMainEvent :=
        List.mem_filter.2 ⟨hsp hne, rfl⟩
      rw [hm] at h1
      simp [mainHist, histToStart] at h1
    subst hns
    refine ⟨?_, ?_, ?_, ?_, ?_, ?_, ?_, ?_⟩ <;>
      simp_all [pathOK, mainHist, histToStart, isMainEvent, isHandlerEvent, handlerHist,
        List.filter_cons, Precedes]
  case l89 =>
    cases done <;> simp at hs
    subst hs
    have hsd : sr ≠ .otherErr → Event.shutdownRet ∈ log := fun hsr =>
      shutdownRet_of_done_at_l89 hsr hm hh (hd.1 rfl)
    refine ⟨?_, ?_, ?_, ?_, ?_, ?_, ?_, ?_⟩ <;>
      simp_all [pathOK, mainHist, histAt89, histToStart, isMainEvent, isHandlerEvent,
        List.filter_cons, Precedes]
  all_goals
    subst hs
    refine ⟨?_, ?_, ?_, ?_, ?_, ?_, ?_, ?_⟩ <;>
      simp_all [pathOK, mainHist, histAt89, histToStart, isMainEvent, isHandlerEvent,
        List.filter_cons, Precedes]

theorem inv_stepHandler {env : Env} {s s' : State} (h : Inv env s)
    (hs : stepHandler s = some s') : Inv env s' := by
  obtain ⟨pc, hpc, done, notified, chan, sig, log⟩ := s
  obtain ⟨hp, hm, hh, hsig, hsp, hd, hw, hsf⟩ := h
  simp only at hp hm hh hsig hsp hd hw hsf
  cases hpc <;> simp only [stepHandler, Option.some.injEq, reduceCtorEq] at hs
  case l73 =>
    cases chan <;> simp at hs
    subst hs
    refine ⟨?_, ?_, ?_, ?_, ?_, ?_, ?_, ?_⟩ <;>
      simp_all [isMainEvent, isHandlerEvent, handlerHist, List.filter_cons, Precedes]
  all_goals
    cases sig <;> simp at hs hsig
    subst hs
    refine ⟨?_, ?_, ?_, ?_, ?_, ?_, ?_, ?_⟩ <;>
      simp_all [isMainEvent, isHandlerEvent, handlerHist, List.filter_cons, Precedes]

theorem inv_stepSignal {env : Env} {s s' : State} (sg : Signal) (h : Inv env s)
    (hs : stepSignal sg s = some s') : Inv env s' := by
  obtain ⟨pc, hpc, done, notified, chan, sig, log⟩ := s
  obtain ⟨hp, hm, hh, hsig, hsp, hd, hw, hsf⟩ := h
  simp only at hp hm hh hsig hsp hd hw hsf
  cases notified <;> cases chan <;> simp [stepSignal] at hs <;> subst hs <;>
    refine ⟨?_, ?_, ?_, ?_, ?_, ?_, ?_, ?_⟩ <;>
      simp_all [isMainEvent, isHandlerEvent, List.filter_cons, Precedes]

theorem inv_step {env : Env} {s s' : State} {l : Label} (h : Inv env s)
    (hs : step env s l = some s') : Inv env s' := by
  cases l with
  | main => exact inv_stepMain h hs
  | handler => exact inv_stepHandler h hs
  | signal sg => exact inv_stepSignal sg h hs

theorem inv_run {env : Env} : ∀ (sched : List Label) {s s' : State}, Inv env s →
    run env s sched = some s' → Inv env s'
  | [], s, s', h, hr => by
    simp only [run, Option.some.injEq] at hr
    exact hr ▸ h
  | l :: ls, s, s', h, hr => by
    simp only [run] at hr
    cases hst : step env s l with
    | none => simp [hst] at hr
    | some s1 =>
      rw [hst] at hr
      exact inv_run ls (inv_step h hst) hr

theorem inv_exec {env : Env} {sched : List Label} {s : State}
    (h : exec env sched = some s) : Inv env s :=
  inv_run sched (inv_init env) h

theorem run_append (env : Env) : ∀ (a b : List Label) (s : State),
    run env s (a ++ b) = (run env s a).bind (fun s' => run env s' b)
  | [], b, s => by simp [run]
  | l :: a, b, s => by
    simp only [List.cons_append, run]
    cases step env s l with
    | none => rfl
    | some s1 => simpa using run_append env a b s1

theorem inv_of_run {env : Env} {sched more : List Label} {s s' : State}
    (hs : exec env sched = some s) (hr : run env s more = some s') : Inv env s' :=
  inv_run more (inv_exec hs) hr

theorem step_log_suffix {env : Env} {s s' : State} {l : Label}
    (hs : step env s l = some s') : s.log <:+ s'.log := by
  obtain ⟨pc, hpc, done, notified, chan, sig, log⟩ := s
  cases l with
  | main =>
    cases pc <;> simp only [step, stepMain, Option.some.injEq, reduceCtorEq] at hs
    case l89 =>
      cases done <;> simp at hs
      subst hs
      exact List.suffix_cons _ _
    all_goals
      subst hs
      exact List.suffix_cons _ _
  | handler =>
    cases hpc <;> simp only [step, stepHandler, Option.some.injEq, reduceCtorEq] at hs
    case l73 =>
      cases chan <;> simp at hs
      subst hs
      exact List.suffix_cons _ _
    case l74 =>
      cases sig <;> simp at hs
      subst hs
      exact List.suffix_cons _ _
    all_goals
      subst hs
      exact List.suffix_cons _ _
  | signal sg =>
    cases notified <;> cases chan <;> simp [step, stepSignal] at hs <;> subst hs
    · exact List.suffix_cons _ _
    · exact List.suffix_refl _

theorem run_log_suffix {env : Env} : ∀ (sched : List Label) {s s' : State},
    run env s sched = some s' → s.log <:+ s'.log
  | [], s, s', hr => by
    simp only [run, Option.some.injEq] at hr
    exact hr ▸ List.suffix_refl _
  | l :: ls, s, s', hr => by
    simp only [run] at hr
    cases hst : step env s l with
    | none => simp [hst] at hr
    | some s1 =>
      rw [hst] at hr
      exact (step_log_suffix hst).trans (run_log_suffix ls hr)

theorem mem_mainHist {env : Env} {s : State} {e : Event} (h : Inv env s)
    (he : isMainEvent e = true) : e ∈ s.log ↔ e ∈ mainHist env s.main := by
  rw [← h.mainLog, List.mem_filter]
  simp [he]

theorem mem_handlerHist {env : Env} {s : State} {e : Event} (h : Inv env s)
    (he : isHandlerEvent e = true) : e ∈ s.log ↔ e ∈ handlerHist s.sig s.handler := by
  rw [← h.handlerLog, List.mem_filter]
  simp [he]

theorem precedes_filter (p : Event → Bool) {a b : Event} (ha : p a = true) (hb : p b = true) :
    ∀ l : List Event, Precedes a b (l.filter p) ↔ Precedes a b l
  | [] => by simp [Precedes]
  | e :: l => by
    have ih := precedes_filter p ha hb l
    by_cases hp : p e = true
    · simp [List.filter_cons, hp, Precedes, ih, List.mem_filter, ha]
    · have hne : e ≠ b := fun h => hp (h ▸ hb)
      simp [List.filter_cons, hp, Precedes, ih, hne]

theorem neverBefore_filter (p : Event → Bool) {a b : Event} (ha : p a = true)
    (hb : p b = true) :
    ∀ l : List Event, NeverBefore a b (l.filter p) ↔ NeverBefore a b l
  | [] => by simp [NeverBefore]
  | e :: l => by
    have ih := neverBefore_filter p ha hb l
    by_cases hp : p e = true
    · simp [List.filter_cons, hp, NeverBefore, ih, List.mem_filter, ha]
    · have hne : e ≠ b := fun h => hp (h ▸ hb)
      simp [List.filter_cons, hp, NeverBefore, ih, hne]

theorem precedes_main {env : Env} {s : State} {a b : Event} (h : Inv env s)
    (ha : isMainEvent a = true) (hb : isMainEvent b = true) :
    Precedes a b s.log ↔ Precedes a b (mainHist env s.main) := by
  rw [← h.mainLog, precedes_filter isMainEvent ha hb]

theorem precedes_handler {env : Env} {s : State} {a b : Event} (h : Inv env s)
    (ha : isHandlerEvent a = true) (hb : isHandlerEvent b = true) :
    Precedes a b s.log ↔ Precedes a b (handlerHist s.sig s.handler) := by
  rw [← h.handlerLog, precedes_filter isHandlerEvent ha hb]

theorem neverBefore_handler {env : Env} {s : State} {a b : Event} (h : Inv env s)
    (ha : isHandlerEvent a = true) (hb : isHandlerEvent b = true) :
    NeverBefore a b s.log ↔ NeverBefore a b (handlerHist s.sig s.handler) := by
  rw [← h.handlerLog, neverBefore_filter isHandlerEvent ha hb]

/-- Facts read off the main thread's history once a failed `Migrate` is in it. -/
theorem mainHist_of_migrate_failed (env : Env) (pc : MainPC) (hp : pathOK env pc = true)
    (hm : Event.migrate true ∈ mainHist env pc) :
    Event.storeNew ∉ mainHist env pc ∧ (∀ f, Event.newServer f ∉ mainHist env pc)
      ∧ Event.startCall ∉ mainHist env pc
      ∧ (pc = .l54 ∨ pc = .l55 ∨ pc = .l56 ∨ pc = .returned)
      ∧ (pc = .returned → Event.cancel .main ∈ mainHist env pc
          ∧ Precedes (.cancel .main) .ret (mainHist env pc)) := by
  obtain ⟨nd, mg, ns, sr⟩ := env
  cases pc <;> simp [mainHist, histToStart, histAt89, pathOK] at hm hp ⊢
  case l89 => cases sr <;> simp [histAt89, histToStart] at hm
  case l90 => cases sr <;> simp [histAt89, histToStart] at hm
  case returned =>
    cases nd <;> cases mg <;> cases ns <;> cases sr <;>
      simp [histAt89, histToStart, Precedes] at hm ⊢

/-- From lines 54, 55 and 56 the main thread is never blocked: it reaches the end of `Run`
in at most three statements, with the context cancelled. -/
theorem run_main_to_return_after_failure (env : Env) (s : State)
    (hpc : s.main = .l54 ∨ s.main = .l55 ∨ s.main = .l56 ∨ s.main = .returned)
    (hd : s.main = .l55 ∨ s.main = .l56 ∨ s.main = .returned → s.done = true) :
    ∃ k s', k ≤ 3 ∧ run env s (List.replicate k .main) = some s' ∧ s'.main = .returned
      ∧ s'.done = true := by
  obtain ⟨pc, hpc', done, notified, chan, sig, log⟩ := s
  simp only at hpc hd
  rcases hpc with h | h | h | h <;> subst h
  · exact ⟨3, _, le_refl _, rfl, rfl, rfl⟩
  · exact ⟨2, _, by decide, rfl, rfl, by simpa using hd⟩
  · exact ⟨1, _, by decide, rfl, rfl, by simpa using hd⟩
  · exact ⟨0, _, by decide, rfl, rfl, by simpa using hd⟩

/-- C1: in every execution of `Run` in which `dbDriver.Migrate` has returned a non-nil
error, no continuation ever constructs the store, calls `server.NewServer` or calls
`s.Start`, and whenever `Run` has returned the context is cancelled, `cancel()` having
been called before the return; moreover the main thread is not blocked on this path: it
returns, with the context cancelled, within at most three further statements. -/
theorem C1_failed_migrate_never_serves (env : Env) (sched : List Label) (s : State)
    (hs : exec env sched = some s) (hm : Event.migrate true ∈ s.log) :
    (∀ (more : List Label) (s' : State), run env s more = some s' →
        Event.storeNew ∉ s'.log ∧ (∀ f, Event.newServer f ∉ s'.log)
          ∧ Event.startCall ∉ s'.log
          ∧ (s'.main = .returned → s'.done = true ∧ Precedes (.cancel .main) .ret s'.log))
      ∧ ∃ (k : Nat) (s' : State), k ≤ 3 ∧ run env s (List.replicate k .main) = some s'
          ∧ s'.main = .returned ∧ s'.done = true := by
  have key : ∀ (more : List Label) (s' : State), run env s more = some s' →
      Inv env s' ∧ Event.storeNew ∉ s'.log ∧ (∀ f, Event.newServer f ∉ s'.log)
        ∧ Event.startCall ∉ s'.log
        ∧ (s'.main = .l54 ∨ s'.main = .l55 ∨ s'.main = .l56 ∨ s'.main = .returned)
        ∧ (s'.main = .returned → Event.cancel .main ∈ s'.log
            ∧ Precedes (.cancel .main) .ret s'.log) := by
    intro more s' hr
    have hinv := inv_of_run hs hr
    have hm' : Event.migrate true ∈ s'.log := (run_log_suffix more hr).subset hm
    have hmh := (mem_mainHist hinv (by rfl)).1 hm'
    obtain ⟨h1, h2, h3, h4, h5⟩ := mainHist_of_migrate_failed env s'.main hinv.path hmh
    refine ⟨hinv, ?_, ?_, ?_, h4, ?_⟩
    · exact fun h => h1 ((mem_mainHist hinv (by rfl)).1 h)
    · exact fun f h => h2 f ((mem_mainHist hinv (by rfl)).1 h)
    · exact fun h => h3 ((mem_mainHist hinv (by rfl)).1 h)
    · intro hret
      exact ⟨(mem_mainHist hinv (by rfl)).2 (h5 hret).1,
        (precedes_main hinv (by rfl) (by rfl)).2 (h5 hret).2⟩
  constructor
  · intro more s' hr
    obtain ⟨hinv, h1, h2, h3, _, h5⟩ := key more s' hr
    refine ⟨h1, h2, h3, fun hret => ⟨?_, (h5 hret).2⟩⟩
    exact hinv.doneIff.2 (Or.inl (h5 hret).1)
  · obtain ⟨hinv, _, _, _, h4, _⟩ := key [] s rfl
    refine run_main_to_return_after_failure env s h4 ?_
    intro hpc
    refine hinv.doneIff.2 (Or.inl ((mem_mainHist hinv (by rfl)).2 ?_))
    obtain ⟨nd, mg, ns, sr⟩ := env
    have hmh := (mem_mainHist hinv (by rfl)).1 hm
    have hp := hinv.path
    rcases hpc with h | h | h <;> rw [h] at hmh hp ⊢ <;> simp [mainHist] at hmh ⊢
    cases nd <;> cases mg <;> cases ns <;> cases sr <;>
      simp [histAt89, histToStart] at hmh ⊢

/-- C1 witness: `Migrate` fails right after a successful `NewDBDriver`. -/
theorem C1_failed_migrate_never_serves_witness :
    exec ⟨false, true, false, .nil⟩ [.main, .main, .main]
        = some ⟨.l54, .notStarted, false, false, none, none,
            [.migrate true, .newDBDriver false, .withCancel]⟩
      ∧ ∃ (k : Nat) (s' : State), k ≤ 3
          ∧ run ⟨false, true, false, .nil⟩
              ⟨.l54, .notStarted, false, false, none, none,
                [.migrate true, .newDBDriver false, .withCancel]⟩
              (List.replicate k .main) = some s'
          ∧ s'.main = .returned ∧ s'.done = true :=
  ⟨rfl, (C1_failed_migrate_never_serves ⟨false, true, false, .nil⟩ [.main, .main, .main]
    ⟨.l54, .notStarted, false, false, none, none,
      [.migrate true, .newDBDriver false, .withCancel]⟩ rfl (by decide)).2⟩

/-- Where `Migrate` stands in the main thread's history. -/
theorem mainHist_migrate_order (env : Env) (pc : MainPC) (hp : pathOK env pc = true) :
    (Event.newDBDriver false ∈ mainHist env pc →
        pc = .l53 ∨ Event.migrate env.migrateErr ∈ mainHist env pc)
      ∧ (Event.newDBDriver true ∈ mainHist env pc → ∀ f, Event.migrate f ∉ mainHist env pc)
      ∧ Precedes (.migrate false) .storeNew (mainHist env pc)
      ∧ (∀ f, Precedes (.migrate false) (.newServer f) (mainHist env pc))
      ∧ Precedes (.migrate false) .startCall (mainHist env pc) := by
  obtain ⟨nd, mg, ns, sr⟩ := env
  cases pc <;> simp [mainHist, histToStart, pathOK, Precedes] at hp ⊢
  case l89 => cases sr <;> simp [histAt89, histToStart, Precedes, hp]
  case l90 => cases sr <;> simp [histAt89, histToStart, Precedes, hp]
  case returned =>
    cases nd <;> cases mg <;> cases ns <;> cases sr <;>
      simp [histAt89, histToStart, Precedes]
  all_goals simp [hp]

/-- C2 as stated fails: when `db.NewDBDriver` returns an error, `Run` cancels, logs and
returns (lines 48-51) and `Migrate` is never called. -/
theorem C2_counterexample :
    (exec ⟨true, false, false, .nil⟩ [.main, .main, .main, .main, .main]).map
        (fun s => (s.main, s.log))
      = some (.returned,
          [.ret, .logError "failed to create db driver", .cancel .main, .newDBDriver true,
           .withCancel])
    ∧ ¬ (∀ (env : Env) (sched : List Label) (s : State), exec env sched = some s →
          s.main = .returned → ∃ f, Event.migrate f ∈ s.log) := by
  refine ⟨by decide, fun h => ?_⟩
  obtain ⟨f, hf⟩ := h ⟨true, false, false, .nil⟩ [.main, .main, .main, .main, .main] _ rfl rfl
  revert hf
  cases f <;> decide

/-- C2 (amended): in every execution, once `db.NewDBDriver` has returned without error the
main thread either has called `Migrate` or stands at line 53, where its next statement
calls `Migrate` whatever the state; `Migrate` is not called when `db.NewDBDriver` failed;
and every construction of the store, every call of `server.NewServer` and every call of
`s.Start` comes after a `Migrate` that returned nil. -/
theorem C2_migrate_after_driver_before_store (env : Env) (sched : List Label) (s : State)
    (hs : exec env sched = some s) :
    (Event.newDBDriver false ∈ s.log →
        Event.migrate env.migrateErr ∈ s.log
          ∨ (s.main = .l53 ∧ ∃ s', step env s .main = some s'
              ∧ s'.log = .migrate env.migrateErr :: s.log))
      ∧ (s.main = .returned → Event.newDBDriver false ∈ s.log →
          Event.migrate env.migrateErr ∈ s.log)
      ∧ (Event.newDBDriver true ∈ s.log → ∀ f, Event.migrate f ∉ s.log)
      ∧ Precedes (.migrate false) .storeNew s.log
      ∧ (∀ f, Precedes (.migrate false) (.newServer f) s.log)
      ∧ Precedes (.migrate false) .startCall s.log := by
  have hinv := inv_exec hs
  obtain ⟨h1, h2, h3, h4, h5⟩ := mainHist_migrate_order env s.main hinv.path
  have hfirst : Event.newDBDriver false ∈ s.log →
      s.main = .l53 ∨ Event.migrate env.migrateErr ∈ s.log := fun h =>
    (h1 ((mem_mainHist hinv (by rfl)).1 h)).imp id (mem_mainHist hinv (by rfl)).2
  refine ⟨?_, ?_, ?_, ?_, ?_, ?_⟩
  · intro h
    rcases hfirst h with hpc | hmem
    · refine Or.inr ⟨hpc, ?_⟩
      simp [step, stepMain, hpc]
    · exact Or.inl hmem
  · intro hret h
    rcases hfirst h with hpc | hmem
    · rw [hret] at hpc
      cases hpc
    · exact hmem
  · exact fun h f hf =>
      h2 ((mem_mainHist hinv (by rfl)).1 h) f ((mem_mainHist hinv (by rfl)).1 hf)
  · exact (precedes_main hinv (by rfl) (by rfl)).2 h3
  · exact fun f => (precedes_main hinv (by rfl) (by rfl)).2 (h4 f)
  · exact (precedes_main hinv (by rfl) (by rfl)).2 h5

/-- C2 witness: a startup that reaches `s.Start`; `Migrate` is in the log before the
store, the server and the start. -/
theorem C2_migrate_after_driver_before_store_witness :
    (exec ⟨false, false, false, .nil⟩ (List.replicate 10 .main)).map (fun s => s.log)
        = some [.startCall, .printGreetings, .goHandler, .signalNotify, .makeChan,
            .newServer false, .storeNew, .migrate false, .newDBDriver false, .withCancel]
      ∧ Precedes (.migrate false) .storeNew
          [.startCall, .printGreetings, .goHandler, .signalNotify, .makeChan,
            .newServer false, .storeNew, .migrate false, .newDBDriver false, .withCancel] :=
  ⟨by decide,
    (C2_migrate_after_driver_before_store ⟨false, false, false, .nil⟩
      (List.replicate 10 .main)
      ⟨.inStart, .l73, false, true, none, none,
        [.startCall, .printGreetings, .goHandler, .signalNotify, .makeChan,
          .newServer false, .storeNew, .migrate false, .newDBDriver false, .withCancel]⟩
      (by decide)).2.2.2.1⟩

/-- How the main thread's history ends on each way out of `Run`. -/
theorem mainHist_return_order (env : Env) (pc : MainPC) (hp : pathOK env pc = true) :
    (pc = .returned →
        Event.cancel .main ∈ mainHist env pc ∨ Event.waitReleased ∈ mainHist env pc)
      ∧ (Event.newDBDriver true ∈ mainHist env pc ∨ Event.migrate true ∈ mainHist env pc
          ∨ Event.newServer true ∈ mainHist env pc →
            Precedes (.cancel .main) .ret (mainHist env pc))
      ∧ (Event.newServer false ∈ mainHist env pc →
            Precedes .waitReleased .ret (mainHist env pc))
      ∧ (∀ r, r ≠ .otherErr → Event.startRet r ∈ mainHist env pc →
            Event.cancel .main ∉ mainHist env pc)
      ∧ (Event.startRet .otherErr ∈ mainHist env pc →
            pc = .l83 ∨ pc = .l84 ∨ Event.cancel .main ∈ mainHist env pc) := by
  obtain ⟨nd, mg, ns, sr⟩ := env
  cases pc <;> simp [mainHist, histToStart, pathOK, Precedes] at hp ⊢
  case l89 => cases sr <;> simp [histAt89, histToStart, Precedes]
  case l90 => cases sr <;> simp [histAt89, histToStart, Precedes]
  case returned =>
    cases nd <;> cases mg <;> cases ns <;> cases sr <;>
      simp [histAt89, histToStart, Precedes]

/-- From lines 83 and 84 the main thread reaches its `cancel()` in at most two
statements. -/
theorem run_main_to_cancel (env : Env) (s : State)
    (hpc : s.main = .l83 ∨ s.main = .l84
      ∨ (Event.cancel .main ∈ s.log ∧ s.done = true)) :
    ∃ (k : Nat) (s' : State), k ≤ 2 ∧ run env s (List.replicate k .main) = some s'
      ∧ Event.cancel .main ∈ s'.log ∧ s'.done = true := by
  obtain ⟨pc, hpc', done, notified, chan, sig, log⟩ := s
  simp only at hpc
  rcases hpc with h | h | h
  · subst h
    exact ⟨2, _, le_refl _, rfl, by simp, rfl⟩
  · subst h
    exact ⟨1, _, by decide, rfl, by simp, rfl⟩
  · exact ⟨0, _, by decide, rfl, h.1, h.2⟩

/-- Where the main thread stands once a failed initialisation call is in its history. -/
theorem mainHist_of_init_failure (env : Env) (pc : MainPC) (hp : pathOK env pc = true)
    (h : Event.newDBDriver true ∈ mainHist env pc ∨ Event.migrate true ∈ mainHist env pc
      ∨ Event.newServer true ∈ mainHist env pc) :
    pc = .l49 ∨ pc = .l54 ∨ pc = .l62
      ∨ ((pc = .l50 ∨ pc = .l55 ∨ pc = .l63 ∨ pc = .l51 ∨ pc = .l56 ∨ pc = .l64
            ∨ pc = .returned)
          ∧ Event.cancel .main ∈ mainHist env pc
          ∧ (pc = .returned → Event.ret ∈ mainHist env pc)) := by
  obtain ⟨nd, mg, ns, sr⟩ := env
  cases pc <;> simp [mainHist, histToStart, pathOK] at hp h ⊢
  case l89 => cases sr <;> simp [histAt89, histToStart] at h
  case l90 => cases sr <;> simp [histAt89, histToStart] at h
  case returned =>
    cases nd <;> cases mg <;> cases ns <;> cases sr <;>
      simp [histAt89, histToStart] at h ⊢

/-- After a failed initialisation call the main thread is never blocked: from the
`cancel()` of lines 49, 54 or 62 it reaches the end of `Run` in at most three statements,
with the context cancelled. -/
theorem run_main_after_init_failure (env : Env) (s : State)
    (hpc : s.main = .l49 ∨ s.main = .l54 ∨ s.main = .l62
      ∨ ((s.main = .l50 ∨ s.main = .l55 ∨ s.main = .l63 ∨ s.main = .l51 ∨ s.main = .l56
            ∨ s.main = .l64 ∨ s.main = .returned)
          ∧ Event.cancel .main ∈ s.log ∧ s.done = true
          ∧ (s.main = .returned → Event.ret ∈ s.log))) :
    ∃ (k : Nat) (s' : State), k ≤ 3 ∧ run env s (List.replicate k .main) = some s'
      ∧ s'.main = .returned ∧ s'.done = true ∧ Event.cancel .main ∈ s'.log
      ∧ Event.ret ∈ s'.log := by
  obtain ⟨pc, hpc', done, notified, chan, sig, log⟩ := s
  simp only at hpc
  rcases hpc with h | h | h | ⟨h, hc, hd, hr⟩
  · subst h
    exact ⟨3, _, le_refl _, rfl, rfl, rfl, by simp, by simp⟩
  · subst h
    exact ⟨3, _, le_refl _, rfl, rfl, rfl, by simp, by simp⟩
  · subst h
    exact ⟨3, _, le_refl _, rfl, rfl, rfl, by simp, by simp⟩
  · subst hd
    rcases h with h | h | h | h | h | h | h <;> subst h
    · exact ⟨2, _, by decide, rfl, rfl, rfl, by simp [hc], by simp⟩
    · exact ⟨2, _, by decide, rfl, rfl, rfl, by simp [hc], by simp⟩
    · exact ⟨2, _, by decide, rfl, rfl, rfl, by simp [hc], by simp⟩
    · exact ⟨1, _, by decide, rfl, rfl, rfl, by simp [hc], by simp⟩
    · exact ⟨1, _, by decide, rfl, rfl, rfl, by simp [hc], by simp⟩
    · exact ⟨1, _, by decide, rfl, rfl, rfl, by simp [hc], by simp⟩
    · exact ⟨0, _, by decide, rfl, rfl, rfl, hc, hr rfl⟩

/-- C10: in every execution, if `Run` has returned then the context is cancelled, and the
context is cancelled exactly when some `cancel()` call is logged.  After a failure of
`db.NewDBDriver`, `dbDriver.Migrate` or `server.NewServer` the main thread calls
`cancel()` before it returns.  After `server.NewServer` succeeded, `Run` returns only
after its wait on `ctx.Done()` was released, which needs the context cancelled: at line 89
with the context not cancelled the main thread cannot move.  When `s.Start` returns nil
or `http.ErrServerClosed` the main thread goes to line 89 leaving the context as it is
and never calls `cancel()` itself; when `s.Start` returns another error the main thread
calls `cancel()` within at most two further statements.  Each of the three
initialisation calls, when it returns an error, is logged as failed and sends the main
thread to the `cancel()` of line 49, 54 or 62; once such a failure is logged the main
thread is never blocked and, within at most three further statements, has called
`cancel()` and then returned.  At line 89 with the context cancelled the main thread is
released and returns in two statements. -/
theorem C10_run_returns_only_cancelled (env : Env) (sched : List Label) (s : State)
    (hs : exec env sched = some s) :
    (s.main = .returned → s.done = true)
      ∧ (s.done = true ↔ Event.cancel .main ∈ s.log ∨ Event.cancel .handler ∈ s.log)
      ∧ (Event.newDBDriver true ∈ s.log ∨ Event.migrate true ∈ s.log
          ∨ Event.newServer true ∈ s.log → Precedes (.cancel .main) .ret s.log)
      ∧ (Event.newServer false ∈ s.log → Precedes .waitReleased .ret s.log)
      ∧ (Event.waitReleased ∈ s.log → s.done = true)
      ∧ (s.main = .l89 → s.done = false → step env s .main = none)
      ∧ (s.main = .inStart → env.startResult ≠ .otherErr →
          ∃ s', step env s .main = some s' ∧ s'.main = .l89 ∧ s'.done = s.done)
      ∧ (∀ r, r ≠ .otherErr → Event.startRet r ∈ s.log → Event.cancel .main ∉ s.log)
      ∧ (Event.startRet .otherErr ∈ s.log →
          ∃ (k : Nat) (s' : State), k ≤ 2 ∧ run env s (List.replicate k .main) = some s'
            ∧ Event.cancel .main ∈ s'.log ∧ s'.done = true)
      ∧ (s.main = .l47 → env.newDBDriverErr = true →
          ∃ s', step env s .main = some s' ∧ s'.main = .l49
            ∧ s'.log = .newDBDriver true :: s.log)
      ∧ (s.main = .l53 → env.migrateErr = true →
          ∃ s', step env s .main = some s' ∧ s'.main = .l54
            ∧ s'.log = .migrate true :: s.log)
      ∧ (s.main = .l60 → env.newServerErr = true →
          ∃ s', step env s .main = some s' ∧ s'.main = .l62
            ∧ s'.log = .newServer true :: s.log)
      ∧ (Event.newDBDriver true ∈ s.log ∨ Event.migrate true ∈ s.log
          ∨ Event.newServer true ∈ s.log →
          ∃ (k : Nat) (s' : State), k ≤ 3 ∧ run env s (List.replicate k .main) = some s'
            ∧ s'.main = .returned ∧ s'.done = true ∧ Event.cancel .main ∈ s'.log
            ∧ Event.ret ∈ s'.log ∧ Precedes (.cancel .main) .ret s'.log)
      ∧ (s.main = .l89 → s.done = true →
          ∃ s', run env s [.main, .main] = some s' ∧ s'.main = .returned
            ∧ s'.log = .ret :: .waitReleased :: s.log) := by
  have hinv := inv_exec hs
  obtain ⟨h1, h2, h3, h4, h5⟩ := mainHist_return_order env s.main hinv.path
  refine ⟨?_, hinv.doneIff, ?_, ?_, hinv.waited, ?_, ?_, ?_, ?_, ?_, ?_, ?_, ?_, ?_⟩
  · intro hret
    rcases h1 hret with h | h
    · exact hinv.doneIff.2 (Or.inl ((mem_mainHist hinv (by rfl)).2 h))
    · exact hinv.waited ((mem_mainHist hinv (by rfl)).2 h)
  · intro h
    refine (precedes_main hinv (by rfl) (by rfl)).2 (h2 ?_)
    exact h.imp (mem_mainHist hinv (by rfl)).1
      (Or.imp (mem_mainHist hinv (by rfl)).1 (mem_mainHist hinv (by rfl)).1)
  · intro h
    exact (precedes_main hinv (by rfl) (by rfl)).2 (h3 ((mem_mainHist hinv (by rfl)).1 h))
  · intro hpc hd
    simp [step, stepMain, hpc, hd]
  · intro hpc hsr
    refine ⟨{ s with main := .l89, log := .startRet env.startResult :: s.log }, ?_, rfl, rfl⟩
    simp only [step, stepMain, hpc]
    cases hr : env.startResult with
    | otherErr => exact absurd hr hsr
    | nil => rfl
    | errServerClosed => rfl
  · intro r hr hmem hc
    exact h4 r hr ((mem_mainHist hinv (by rfl)).1 hmem) ((mem_mainHist hinv (by rfl)).1 hc)
  · intro hmem
    refine run_main_to_cancel env s ?_
    rcases h5 ((mem_mainHist hinv (by rfl)).1 hmem) with h | h | h
    · exact Or.inl h
    · exact Or.inr (Or.inl h)
    · have hc := (mem_mainHist hinv (by rfl)).2 h
      exact Or.inr (Or.inr ⟨hc, hinv.doneIff.2 (Or.inl hc)⟩)
  · intro hpc he
    exact ⟨{ s with main := .l49, log := .newDBDriver true :: s.log },
      by simp [step, stepMain, hpc, he], rfl, rfl⟩
  · intro hpc he
    exact ⟨{ s with main := .l54, log := .migrate true :: s.log },
      by simp [step, stepMain, hpc, he], rfl, rfl⟩
  · intro hpc he
    exact ⟨{ s with main := .l62, log := .newServer true :: s.log },
      by simp [step, stepMain, hpc, he], rfl, rfl⟩
  · intro hfail
    have hfail' : Event.newDBDriver true ∈ mainHist env s.main
        ∨ Event.migrate true ∈ mainHist env s.main
        ∨ Event.newServer true ∈ mainHist env s.main :=
      hfail.imp (mem_mainHist hinv (by rfl)).1
        (Or.imp (mem_mainHist hinv (by rfl)).1 (mem_mainHist hinv (by rfl)).1)
    have hpc : s.main = .l49 ∨ s.main = .l54 ∨ s.main = .l62
        ∨ ((s.main = .l50 ∨ s.main = .l55 ∨ s.main = .l63 ∨ s.main = .l51 ∨ s.main = .l56
              ∨ s.main = .l64 ∨ s.main = .returned)
            ∧ Event.cancel .main ∈ s.log ∧ s.done = true
            ∧ (s.main = .returned → Event.ret ∈ s.log)) := by
      rcases mainHist_of_init_failure env s.main hinv.path hfail' with h | h | h | h
      · exact Or.inl h
      · exact Or.inr (Or.inl h)
      · exact Or.inr (Or.inr (Or.inl h))
      · have hc := (mem_mainHist hinv (by rfl)).2 h.2.1
        exact Or.inr (Or.inr (Or.inr ⟨h.1, hc, hinv.doneIff.2 (Or.inl hc),
          fun hr => (mem_mainHist hinv (by rfl)).2 (h.2.2 hr)⟩))
    obtain ⟨k, s', hk, hr, hret, hd, hc, hre⟩ := run_main_after_init_failure env s hpc
    refine ⟨k, s', hk, hr, hret, hd, hc, hre, ?_⟩
    have hinv' := inv_of_run hs hr
    have hsub := (run_log_suffix _ hr).subset
    have hfail'' : Event.newDBDriver true ∈ mainHist env s'.main
        ∨ Event.migrate true ∈ mainHist env s'.main
        ∨ Event.newServer true ∈ mainHist env s'.main :=
      hfail.imp (fun h => (mem_mainHist hinv' (by rfl)).1 (hsub h))
        (Or.imp (fun h => (mem_mainHist hinv' (by rfl)).1 (hsub h))
          (fun h => (mem_mainHist hinv' (by rfl)).1 (hsub h)))
    exact (precedes_main hinv' (by rfl) (by rfl)).2
      ((mainHist_return_order env s'.main hinv'.path).2.1 hfail'')
  · intro hpc hd
    exact ⟨{ s with main := .returned, log := .ret :: .waitReleased :: s.log },
      by simp [run, step, stepMain, hpc, hd], rfl, rfl⟩

/-- C10 witness: `s.Start` fails with another error; the main thread cancels, its wait is
released and `Run` returns with the context cancelled. -/
theorem C10_run_returns_only_cancelled_witness :
    (exec ⟨false, false, false, .otherErr⟩ (List.replicate 15 .main)).map
        (fun s => (s.main, s.done)) = some (.returned, true)
      ∧ ((⟨.returned, .l73, true, true, none, none,
            .ret :: .waitReleased :: histAt89 .otherErr⟩ : State).main = .returned →
          (⟨.returned, .l73, true, true, none, none,
            .ret :: .waitReleased :: histAt89 .otherErr⟩ : State).done = true) :=
  ⟨by decide,
    (C10_run_returns_only_cancelled ⟨false, false, false, .otherErr⟩
      (List.replicate 15 .main)
      ⟨.returned, .l73, true, true, none, none, .ret :: .waitReleased :: histAt89 .otherErr⟩
      (by decide)).1⟩

/-- Order of the goroutine's own events. -/
theorem handlerHist_order (sig : Option Signal) (pc : HandlerPC) :
    Precedes .shutdownRet (.cancel .handler) (handlerHist sig pc)
      ∧ Precedes .shutdownCall .shutdownRet (handlerHist sig pc)
      ∧ NeverBefore (.cancel .handler) .shutdownCall (handlerHist sig pc)
      ∧ (∃ sg, Precedes (.recv sg) .shutdownCall (handlerHist sig pc))
      ∧ (∀ sg, Event.recv sg ∈ handlerHist sig pc →
          sig = some sg ∧ (pc = .l74 ∨ pc = .l75 ∨ pc = .inShutdown ∨ pc = .l76
            ∨ (pc = .finished ∧ Event.cancel .handler ∈ handlerHist sig pc)))
      ∧ (pc = .finished → sig.isSome = true → Event.shutdownRet ∈ handlerHist sig pc) := by
  cases sig with
  | none =>
    cases pc <;> simp [handlerHist, Precedes, NeverBefore] <;> exact ⟨.sigterm, trivial⟩
  | some sg =>
    cases pc <;> simp [handlerHist, Precedes, NeverBefore] <;> exact ⟨.sigterm, trivial⟩

/-- Once it has received a signal the goroutine is never blocked: it finishes, its last
statement being `cancel()`, in at most four statements. -/
theorem run_handler_to_finished (env : Env) (s : State) (sg : Signal)
    (hsig : s.sig = some sg)
    (hpc : s.handler = .l74 ∨ s.handler = .l75 ∨ s.handler = .inShutdown ∨ s.handler = .l76
      ∨ (s.handler = .finished ∧ s.done = true)) :
    ∃ (k : Nat) (s' : State), k ≤ 4 ∧ run env s (List.replicate k .handler) = some s'
      ∧ s'.handler = .finished ∧ s'.done = true ∧ s'.sig = some sg := by
  obtain ⟨pc, hpc', done, notified, chan, sig, log⟩ := s
  simp only at hpc hsig
  subst hsig
  rcases hpc with h | h | h | h | h
  · subst h
    exact ⟨4, _, le_refl _, rfl, rfl, rfl, rfl⟩
  · subst h
    exact ⟨3, _, by decide, rfl, rfl, rfl, rfl⟩
  · subst h
    exact ⟨2, _, by decide, rfl, rfl, rfl, rfl⟩
  · subst h
    exact ⟨1, _, by decide, rfl, rfl, rfl, rfl⟩
  · exact ⟨0, _, by decide, rfl, h.1, h.2, rfl⟩

/-- C9 as stated fails: `s.Start` returns an error other than `http.ErrServerClosed`
while the goroutine, having received SIGTERM, has not yet called `s.Shutdown`.  The main
thread calls `cancel()` on line 84 and its wait on line 89 is released although
`Shutdown` has not returned (it has not even been called). -/
theorem C9_counterexample :
    (exec ⟨false, false, false, .otherErr⟩
        (List.replicate 10 .main ++ [.signal .sigterm, .handler, .main, .main, .main, .main])).map
        (fun s => (s.main, s.handler, s.log))
      = some (.l90, .l74,
          [.waitReleased, .cancel .main, .logError "failed to start server",
           .startRet .otherErr, .recv .sigterm, .deliver .sigterm, .startCall,
           .printGreetings, .goHandler, .signalNotify, .makeChan, .newServer false,
           .storeNew, .migrate false, .newDBDriver false, .withCancel])
    ∧ ¬ (∀ (env : Env) (sched : List Label) (s : State), exec env sched = some s →
          (∃ sg, Event.recv sg ∈ s.log) → Precedes .shutdownRet .waitReleased s.log) := by
  refine ⟨by decide, fun h => ?_⟩
  have h1 := h ⟨false, false, false, .otherErr⟩
    (List.replicate 10 .main ++ [.signal .sigterm, .handler, .main, .main, .main, .main])
    ⟨.l90, .l74, true, true, none, some .sigterm,
      [.waitReleased, .cancel .main, .logError "failed to start server",
       .startRet .otherErr, .recv .sigterm, .deliver .sigterm, .startCall,
       .printGreetings, .goHandler, .signalNotify, .makeChan, .newServer false,
       .storeNew, .migrate false, .newDBDriver false, .withCancel]⟩
    (by decide) ⟨.sigterm, by decide⟩
  revert h1
  decide

/-- C9 (amended): in every execution, the goroutine's `cancel()` comes after the return
of `s.Shutdown`, which comes after its call, so no call of `s.Shutdown` has the
goroutine's `cancel()` before it; `s.Shutdown` is called only after a signal was received
from the channel; and once a signal is received the goroutine is never blocked and
finishes with `s.Shutdown` returned and the context cancelled within at most four
statements.  When `s.Start` returns nil or `http.ErrServerClosed`, the wait of line 89 is
released only after `s.Shutdown` has returned. -/
theorem C9_shutdown_before_cancel (env : Env) (sched : List Label) (s : State)
    (hs : exec env sched = some s) :
    Precedes .shutdownRet (.cancel .handler) s.log
      ∧ Precedes .shutdownCall .shutdownRet s.log
      ∧ NeverBefore (.cancel .handler) .shutdownCall s.log
      ∧ (∃ sg, Precedes (.recv sg) .shutdownCall s.log)
      ∧ ((∃ sg, Event.recv sg ∈ s.log) →
          ∃ (k : Nat) (s' : State), k ≤ 4 ∧ run env s (List.replicate k .handler) = some s'
            ∧ s'.handler = .finished ∧ s'.done = true ∧ Event.shutdownRet ∈ s'.log)
      ∧ (env.startResult ≠ .otherErr → Precedes .shutdownRet .waitReleased s.log) := by
  have hinv := inv_exec hs
  obtain ⟨h1, h2, h3, ⟨sg0, h4⟩, h5, _⟩ := handlerHist_order s.sig s.handler
  refine ⟨?_, ?_, ?_, ⟨sg0, ?_⟩, ?_, hinv.shutdownFirst⟩
  · exact (precedes_handler hinv (by rfl) (by rfl)).2 h1
  · exact (precedes_handler hinv (by rfl) (by rfl)).2 h2
  · exact (neverBefore_handler hinv (by rfl) (by rfl)).2 h3
  · exact (precedes_handler hinv (by rfl) (by rfl)).2 h4
  · rintro ⟨sg, hsg⟩
    obtain ⟨hsig, hpc⟩ := h5 sg ((mem_handlerHist hinv (by rfl)).1 hsg)
    have hpc' : s.handler = .l74 ∨ s.handler = .l75 ∨ s.handler = .inShutdown
        ∨ s.handler = .l76 ∨ (s.handler = .finished ∧ s.done = true) := by
      rcases hpc with h | h | h | h | h
      · exact Or.inl h
      · exact Or.inr (Or.inl h)
      · exact Or.inr (Or.inr (Or.inl h))
      · exact Or.inr (Or.inr (Or.inr (Or.inl h)))
      · exact Or.inr (Or.inr (Or.inr (Or.inr
          ⟨h.1, hinv.doneIff.2 (Or.inr ((mem_handlerHist hinv (by rfl)).2 h.2))⟩)))
    obtain ⟨k, s', hk, hr, hf, hd, hsig'⟩ := run_handler_to_finished env s sg hsig hpc'
    refine ⟨k, s', hk, hr, hf, hd, ?_⟩
    have hinv' := inv_of_run hs hr
    refine (mem_handlerHist hinv' (by rfl)).2 ?_
    exact (handlerHist_order s'.sig s'.handler).2.2.2.2.2 hf (by simp [hsig'])

/-- C9 witness: SIGINT arrives while the server runs, `s.Start` then returns
`http.ErrServerClosed`; the wait of line 89 is released after `s.Shutdown` returned. -/
theorem C9_shutdown_before_cancel_witness :
    (exec ⟨false, false, false, .errServerClosed⟩
        (List.replicate 10 .main
          ++ [.signal .interrupt, .handler, .handler, .handler, .handler, .main, .handler,
              .main, .main])).map (fun s => (s.main, s.handler, s.done, s.log))
      = some (.returned, .finished, true,
          [.ret, .waitReleased, .cancel .handler, .startRet .errServerClosed, .shutdownRet,
           .shutdownCall, .logInfo .interrupt, .recv .interrupt, .deliver .interrupt,
           .startCall, .printGreetings, .goHandler, .signalNotify, .makeChan,
           .newServer false, .storeNew, .migrate false, .newDBDriver false, .withCancel])
      ∧ Precedes .shutdownRet (.cancel .handler)
          [.ret, .waitReleased, .cancel .handler, .startRet .errServerClosed, .shutdownRet,
           .shutdownCall, .logInfo .interrupt, .recv .interrupt, .deliver .interrupt,
           .startCall, .printGreetings, .goHandler, .signalNotify, .makeChan,
           .newServer false, .storeNew, .migrate false, .newDBDriver false, .withCancel] :=
  ⟨by decide,
    (C9_shutdown_before_cancel ⟨false, false, false, .errServerClosed⟩
      (List.replicate 10 .main
        ++ [.signal .interrupt, .handler, .handler, .handler, .handler, .main, .handler,
            .main, .main])
      ⟨.returned, .finished, true, true, none, some .interrupt,
        [.ret, .waitReleased, .cancel .handler, .startRet .errServerClosed, .shutdownRet,
         .shutdownCall, .logInfo .interrupt, .recv .interrupt, .deliver .interrupt,
         .startCall, .printGreetings, .goHandler, .signalNotify, .makeChan,
         .newServer false, .storeNew, .migrate false, .newDBDriver false, .withCancel]⟩
      (by decide)).1⟩

end Cmd

namespace Store

/-! ## Theorems about the `Driver` interface -/

/-- C3 as stated fails: the declared result is a list of `Visibility` values, and the
memo ids cannot be read off it.  A table holding only memo 1 and a table holding only
memo 2, both private, give the same result `[private]` for the ids 1 and 2, while the
mappings the claim describes differ (`1 ↦ private` against `2 ↦ private`); so no way of
reading the result, even knowing the ids asked for, yields the mapping. -/
theorem C3_counterexample :
    (Driver.filter (fun m => m.name == "FindMemosVisibilityList")).map (·.results)
        = [[.slice (.named "Visibility"), .named "error"]]
      ∧ findMemosVisibilityList [⟨1, .vPrivate⟩] [1, 2] = .ok [.vPrivate]
      ∧ findMemosVisibilityList [⟨2, .vPrivate⟩] [1, 2] = .ok [.vPrivate]
      ∧ visibilityMapping [⟨1, .vPrivate⟩] [1, 2] = [(1, .vPrivate)]
      ∧ visibilityMapping [⟨2, .vPrivate⟩] [1, 2] = [(2, .vPrivate)]
      ∧ ¬ (∃ decode : List Int → List Visibility → List (Int × Visibility),
            ∀ (memos : List MemoRow) (memoIDs : List Int),
              (findMemosVisibilityList memos memoIDs).map (decode memoIDs)
                = .ok (visibilityMapping memos memoIDs)) := by
  refine ⟨by decide, rfl, rfl, by decide, by decide, ?_⟩
  rintro ⟨decode, h⟩
  have h1 := h [⟨1, .vPrivate⟩] [1, 2]
  have h2 := h [⟨2, .vPrivate⟩] [1, 2]
  have e1 : findMemosVisibilityList [⟨1, .vPrivate⟩] [1, 2] = .ok [.vPrivate] := rfl
  have e2 : findMemosVisibilityList [⟨2, .vPrivate⟩] [1, 2] = .ok [.vPrivate] := rfl
  have m1 : visibilityMapping [⟨1, .vPrivate⟩] [1, 2] = [(1, .vPrivate)] := by decide
  have m2 : visibilityMapping [⟨2, .vPrivate⟩] [1, 2] = [(2, .vPrivate)] := by decide
  rw [e1, m1] at h1
  rw [e2, m2] at h2
  simp only [Except.map, Except.ok.injEq] at h1 h2
  rw [h1] at h2
  revert h2
  decide

/-- C3 (amended): `FindMemosVisibilityList` is declared with a context and a list of
`int32` ids as parameters and `([]Visibility, error)` as results.  For every table and
every list of ids it returns, without error, the visibilities of the mapping the claim
describes with the ids dropped; that mapping covers exactly the given ids that exist, each
with the visibility of a memo of that id; so a visibility is returned exactly when it is
the current visibility of a given id that exists, and ids that do not exist are omitted:
asking for them as well changes nothing. -/
theorem C3_visibility_list_without_ids :
    (Driver.filter (fun m => m.name == "FindMemosVisibilityList")).map
        (fun m => (m.model, m.params.map (·.type), m.results))
      = [(some "Memo", [ctxT, .slice (.named "int32")], [.slice (.named "Visibility"), errT])]
    ∧ (∀ (memos : List MemoRow) (memoIDs : List Int),
        findMemosVisibilityList memos memoIDs
          = .ok ((visibilityMapping memos memoIDs).map Prod.snd))
    ∧ (∀ (memos : List MemoRow) (memoIDs : List Int) (id : Int),
        id ∈ (visibilityMapping memos memoIDs).map Prod.fst
          ↔ id ∈ memoIDs ∧ ∃ m ∈ memos, m.id = id)
    ∧ (∀ (memos : List MemoRow) (memoIDs : List Int) (id : Int) (v : Visibility),
        (id, v) ∈ visibilityMapping memos memoIDs
          ↔ id ∈ memoIDs ∧ (⟨id, v⟩ : MemoRow) ∈ memos)
    ∧ (∀ (memos : List MemoRow) (memoIDs : List Int) (v : Visibility),
        (∃ vs, findMemosVisibilityList memos memoIDs = .ok vs ∧ v ∈ vs)
          ↔ ∃ m ∈ memos, m.id ∈ memoIDs ∧ m.visibility = v)
    ∧ (∀ (memos : List MemoRow) (memoIDs unknown : List Int),
        (∀ m ∈ memos, m.id ∉ unknown) →
          findMemosVisibilityList memos (memoIDs ++ unknown)
            = findMemosVisibilityList memos memoIDs) := by
  refine ⟨by decide, ?_, ?_, ?_, ?_, ?_⟩
  · intro memos memoIDs
    simp [findMemosVisibilityList, visibilityMapping, List.map_map, Function.comp_def]
  · intro memos memoIDs id
    simp only [visibilityMapping, List.map_map, List.mem_map, List.mem_filter,
      List.contains_iff_exists_mem_beq, beq_iff_eq, exists_eq_right', Function.comp_apply]
    constructor
    · rintro ⟨m, ⟨hm, hid⟩, rfl⟩
      exact ⟨hid, m, hm, rfl⟩
    · rintro ⟨hid, m, hm, rfl⟩
      exact ⟨m, ⟨hm, hid⟩, rfl⟩
  · intro memos memoIDs id v
    simp only [visibilityMapping, List.mem_map, List.mem_filter, List.contains_iff_exists_mem_beq, beq_iff_eq, exists_eq_right',
      Prod.mk.injEq]
    constructor
    · rintro ⟨m, ⟨hm, hid⟩, rfl, rfl⟩
      exact ⟨hid, hm⟩
    · rintro ⟨hid, hm⟩
      exact ⟨⟨id, v⟩, ⟨hm, hid⟩, rfl, rfl⟩
  · intro memos memoIDs v
    simp only [findMemosVisibilityList, Except.ok.injEq, exists_eq_left', List.mem_map,
      List.mem_filter, List.contains_iff_exists_mem_beq, beq_iff_eq, exists_eq_right']
    constructor
    · rintro ⟨m, ⟨hm, hid⟩, rfl⟩
      exact ⟨m, hm, hid, rfl⟩
    · rintro ⟨m, hm, hid, rfl⟩
      exact ⟨m, ⟨hm, hid⟩, rfl⟩
  · intro memos memoIDs unknown hun
    simp only [findMemosVisibilityList, Except.ok.injEq]
    congr 1
    apply List.filter_congr
    intro m hm
    have := hun m hm
    simp [this]

/-- C3 witness: the scenario of the spec: a private memo `m1` looked up by its id gives
`[private]`, and after its visibility is set to public gives `[public]`; an unknown id
asked for as well is omitted. -/
theorem C3_visibility_list_without_ids_witness :
    findMemosVisibilityList [⟨1, .vPrivate⟩] [1] = .ok [.vPrivate]
      ∧ findMemosVisibilityList [⟨1, .vPublic⟩] [1] = .ok [.vPublic]
      ∧ findMemosVisibilityList [⟨1, .vPublic⟩] ([1] ++ [7])
          = findMemosVisibilityList [⟨1, .vPublic⟩] [1] :=
  ⟨rfl, rfl, C3_visibility_list_without_ids.2.2.2.2.2 [⟨1, .vPublic⟩] [1] [7] (by decide)⟩

/-- C4: the methods under the Activity section comment are exactly `CreateActivity` and
`ListActivity`, a Create and a List; they are also the only methods with a parameter or
a result built on a type whose name ends in `Activity`; no method has a parameter built
on `UpdateActivity` or `DeleteActivity`, and no method is named `UpdateActivity`,
`DeleteActivity` or `UpsertActivity`.  Hence every sequence of calls of Activity
operations of the interface consists of Create and List operations only. -/
theorem C4_activity_append_only :
    (methodsOf "Activity").map (·.name) = ["CreateActivity", "ListActivity"]
      ∧ (methodsOf "Activity").map (·.kind) = [some .create, some .list]
      ∧ (Driver.filter (Method.concerns "Activity")).map (·.name)
          = ["CreateActivity", "ListActivity"]
      ∧ (∀ m ∈ Driver, ∀ p ∈ m.params,
          baseName p.type ≠ some "UpdateActivity" ∧ baseName p.type ≠ some "DeleteActivity")
      ∧ (∀ n ∈ ["UpdateActivity", "DeleteActivity", "UpsertActivity"], findMethod n = none)
      ∧ (∀ calls : List Method,
          (∀ c ∈ calls, c ∈ Driver ∧ (c.model = some "Activity" ∨ c.concerns "Activity" = true)) →
          ∀ c ∈ calls, c.kind = some .create ∨ c.kind = some .list) := by
  refine ⟨by decide, by decide, by decide, by decide, by decide, ?_⟩
  intro calls h c hc
  have key : ∀ m ∈ Driver, (m.model = some "Activity" ∨ m.concerns "Activity" = true) →
      (m.kind = some .create ∨ m.kind = some .list) := by decide
  exact key c (h c hc).1 (h c hc).2

/-- C5: the interface declares an Upsert operation for exactly the models MemoRelation,
MemoOrganizer, SystemSetting, UserSetting (in both forms) and Tag, which are the entities
the spec names as upsert-keyed.  For each of them no method of its section is a Create or
an Update, no Create or Update method has a parameter or result built on a type of that
entity, and no method is named Create or Update followed by the entity name. -/
theorem C5_upsert_only_entities :
    (methodsOfKind .upsert).map (·.name)
        = ["UpsertMemoRelation", "UpsertMemoOrganizer", "UpsertSystemSetting",
           "UpsertUserSetting", "UpsertUserSettingV1", "UpsertTag"]
      ∧ upsertModels = ["MemoRelation", "MemoOrganizer", "SystemSetting", "UserSetting", "Tag"]
      ∧ (∀ e, e ∈ upsertModels ↔ e ∈ specUpsertKeyed)
      ∧ (∀ e ∈ upsertModels, ∀ m ∈ methodsOf e,
          m.kind ≠ some .create ∧ m.kind ≠ some .update)
      ∧ (∀ e ∈ upsertModels, ∀ m ∈ Driver, m.concerns e = true →
          m.kind ≠ some .create ∧ m.kind ≠ some .update)
      ∧ (∀ m ∈ methodsOfKind .upsert,
          findMethod ("Create" ++ upsertEntity m) = none
            ∧ findMethod ("Update" ++ upsertEntity m) = none) := by
  refine ⟨by decide, by decide, ?_, by decide, by decide, by decide⟩
  intro e
  have h : upsertModels
      = ["MemoRelation", "MemoOrganizer", "SystemSetting", "UserSetting", "Tag"] := by decide
  rw [h]
  simp only [specUpsertKeyed, List.mem_cons, List.mem_singleton, List.not_mem_nil, or_false]
  tauto

/-- C7: the UserSetting section of the interface consists of four distinct methods: an
Upsert and a List over `*UserSetting` (the legacy form) and an Upsert and a List over
`*storepb.UserSetting` (the typed form). -/
theorem C7_both_user_setting_forms :
    methodsOf "UserSetting"
        = [ ⟨some "UserSetting", "UpsertUserSetting",
              [ctxP, ⟨"upsert", .pointer (.named "UserSetting")⟩],
              [.pointer (.named "UserSetting"), errT]⟩,
            ⟨some "UserSetting", "ListUserSettings",
              [ctxP, ⟨"find", .pointer (.named "FindUserSetting")⟩],
              [.slice (.pointer (.named "UserSetting")), errT]⟩,
            ⟨some "UserSetting", "UpsertUserSettingV1",
              [ctxP, ⟨"upsert", .pointer (.qualified "storepb" "UserSetting")⟩],
              [.pointer (.qualified "storepb" "UserSetting"), errT]⟩,
            ⟨some "UserSetting", "ListUserSettingsV1",
              [ctxP, ⟨"find", .pointer (.named "FindUserSettingV1")⟩],
              [.slice (.pointer (.qualified "storepb" "UserSetting")), errT]⟩ ]
      ∧ (methodsOf "UserSetting").map (·.kind)
          = [some .upsert, some .list, some .upsert, some .list]
      ∧ (Driver.map (·.name)).Nodup
      ∧ (∀ n ∈ ["UpsertUserSetting", "ListUserSettings", "UpsertUserSettingV1",
                "ListUserSettingsV1"], (findMethod n).isSome = true) := by
  refine ⟨by decide, by decide, by decide, by decide⟩

/-- C8 as stated fails: `UpdateMemo` returns only an error, while `UpdateResource` (and
the other Update operations) return a record and an error, so the Update operations do
not have one signature shape. -/
theorem C8_counterexample :
    (findMethod "UpdateResource").map Method.shape
        = some ([ctxT, .pointer (.named "_")], [.pointer (.named "_"), errT])
      ∧ (findMethod "UpdateMemo").map Method.shape
        = some ([ctxT, .pointer (.named "_")], [errT])
      ∧ ¬ (∀ k ∈ [OpKind.create, OpKind.list, OpKind.update, OpKind.delete], Uniform k) := by
  refine ⟨by decide, by decide, fun h => ?_⟩
  have hu := h .update (by decide)
  revert hu
  unfold Uniform
  decide

/-- C8 (amended): the Create operations all have the shape `(ctx, *T) (*T, error)`, the
List operations all `(ctx, *T) ([]*T, error)`, the Delete operations all
`(ctx, *T) error`.  The Update operations are `UpdateResource`, `UpdateMemo`,
`UpdateUser`, `UpdateIdentityProvider` and `UpdateStorage`; each takes the context and a
pointer to the patch descriptor named like the method; each but `UpdateMemo` returns a
pointer to the record of its model and an error, and `UpdateMemo` returns an error
only. -/
theorem C8_crud_shapes :
    Uniform .create ∧ Uniform .list ∧ Uniform .delete
      ∧ (∀ m ∈ methodsOfKind .create,
          m.shape = ([ctxT, .pointer (.named "_")], [.pointer (.named "_"), errT]))
      ∧ (∀ m ∈ methodsOfKind .list,
          m.shape = ([ctxT, .pointer (.named "_")], [.slice (.pointer (.named "_")), errT]))
      ∧ (∀ m ∈ methodsOfKind .delete, m.shape = ([ctxT, .pointer (.named "_")], [errT]))
      ∧ (methodsOfKind .update).map (·.name)
          = ["UpdateResource", "UpdateMemo", "UpdateUser", "UpdateIdentityProvider",
             "UpdateStorage"]
      ∧ (∀ m ∈ methodsOfKind .update, m.params = [ctxP, ⟨"update", ptr m.name⟩])
      ∧ (∀ m ∈ methodsOfKind .update, m.name ≠ "UpdateMemo" →
          m.model.map (fun e => [ptr e, errT]) = some m.results)
      ∧ (findMethod "UpdateMemo").map (·.results) = some [errT] := by
  unfold Uniform
  refine ⟨by decide, by decide, by decide, by decide, by decide, by decide, by decide,
    by decide, by decide, by decide⟩

/-! ## Theorems about Upsert -/

theorem map_key_overwrite {Row Key : Type} [DecidableEq Key] (key : Row → Key) (r : Row)
    (table : List Row) :
    (table.map (fun x => if key x = key r then r else x)).map key = table.map key := by
  induction table with
  | nil => rfl
  | cons x xs ih =>
    simp only [List.map_cons, ih, List.cons.injEq, and_true]
    split
    · next h => exact h.symm
    · rfl

theorem upsert_uniqueKeys {Row Key : Type} [DecidableEq Key] (key : Row → Key) (r : Row)
    (table : List Row) (h : UniqueKeys key table) : UniqueKeys key (upsert key r table) := by
  unfold upsert UniqueKeys at *
  split
  · rw [map_key_overwrite]
    exact h
  · next hany =>
    simp only [List.any_eq_true, decide_eq_true_eq, not_exists, not_and] at hany
    rw [List.map_append, List.map_singleton]
    refine List.Nodup.append h (List.nodup_singleton _) ?_
    simp only [List.disjoint_singleton, List.mem_map, not_exists, not_and]
    exact fun x hx => hany x hx

theorem rowsWithKey_eq_nil {Row Key : Type} [DecidableEq Key] (key : Row → Key) (k : Key)
    (table : List Row) (h : ∀ x ∈ table, key x ≠ k) : rowsWithKey key k table = [] := by
  unfold rowsWithKey
  rw [List.filter_eq_nil_iff]
  intro x hx
  simpa using h x hx

theorem rowsWithKey_overwrite {Row Key : Type} [DecidableEq Key] (key : Row → Key) (r : Row) :
    ∀ (table : List Row), UniqueKeys key table → (∃ x ∈ table, key x = key r) →
      rowsWithKey key (key r) (table.map (fun x => if key x = key r then r else x)) = [r]
  | [], _, hex => by simp at hex
  | x :: xs, hu, hex => by
    have hu' : key x ∉ xs.map key ∧ UniqueKeys key xs := by
      simpa [UniqueKeys] using hu
    by_cases hx : key x = key r
    · have hno : ∀ y ∈ xs.map (fun x => if key x = key r then r else x), key y ≠ key r := by
        intro y hy hyk
        have : key y ∈ (xs.map (fun x => if key x = key r then r else x)).map key :=
          List.mem_map_of_mem key hy
        rw [map_key_overwrite] at this
        exact hu'.1 (hx ▸ hyk ▸ this)
      have hnil := rowsWithKey_eq_nil key (key r) _ hno
      unfold rowsWithKey at hnil ⊢
      simp [hx, hnil]
    · have hex' : ∃ y ∈ xs, key y = key r := by
        obtain ⟨y, hy, hyk⟩ := hex
        rcases List.mem_cons.1 hy with rfl | hy'
        · exact absurd hyk hx
        · exact ⟨y, hy', hyk⟩
      have ih := rowsWithKey_overwrite key r xs hu'.2 hex'
      unfold rowsWithKey at ih ⊢
      simp [hx, ih]

theorem rowsWithKey_upsert {Row Key : Type} [DecidableEq Key] (key : Row → Key) (r : Row)
    (table : List Row) (h : UniqueKeys key table) :
    rowsWithKey key (key r) (upsert key r table) = [r] := by
  unfold upsert
  split
  · next hany =>
    simp only [List.any_eq_true, decide_eq_true_eq] at hany
    exact rowsWithKey_overwrite key r table h hany
  · next hany =>
    simp only [List.any_eq_true, decide_eq_true_eq, not_exists, not_and] at hany
    have hnil := rowsWithKey_eq_nil key (key r) table hany
    unfold rowsWithKey at hnil ⊢
    simp [List.filter_append, hnil]

theorem upsert_mem_key {Row Key : Type} [DecidableEq Key] (key : Row → Key) (r : Row)
    (table : List Row) : ∃ x ∈ upsert key r table, key x = key r := by
  unfold upsert
  split
  · next hany =>
    simp only [List.any_eq_true, decide_eq_true_eq] at hany
    obtain ⟨x, hx, hk⟩ := hany
    exact ⟨r, List.mem_map.2 ⟨x, hx, by simp [hk]⟩, rfl⟩
  · exact ⟨r, by simp, rfl⟩

theorem upsert_length_of_mem {Row Key : Type} [DecidableEq Key] (key : Row → Key) (r : Row)
    (table : List Row) (h : ∃ x ∈ table, key x = key r) :
    (upsert key r table).length = table.length := by
  unfold upsert
  have hany : table.any (fun x => decide (key x = key r)) = true := by
    simpa [List.any_eq_true] using h
  simp [hany]

theorem upsertTwice {Row Key : Type} [DecidableEq Key] (key : Row → Key) :
    UpsertTwiceKeepsSecond key := by
  intro table r1 r2 hu hk
  have hu1 := upsert_uniqueKeys key r1 table hu
  refine ⟨rowsWithKey_upsert key r2 _ hu1, ?_, upsert_uniqueKeys key r2 _ hu1⟩
  apply upsert_length_of_mem
  obtain ⟨x, hx, hxk⟩ := upsert_mem_key key r1 table
  exact ⟨x, hx, hxk.trans hk⟩

/-- C6: for each upsert-keyed entity (SystemSetting, UserSetting, Tag, MemoOrganizer,
MemoRelation), on every table that satisfies the entity's unique index, upserting a
record and then a second record with the same natural key leaves exactly one row with
that key, equal to the second record; the second upsert adds no row and the unique index
still holds. -/
theorem C6_upsert_twice_one_row :
    UpsertTwiceKeepsSecond SystemSetting.natKey
      ∧ UpsertTwiceKeepsSecond UserSetting.natKey
      ∧ UpsertTwiceKeepsSecond Tag.natKey
      ∧ UpsertTwiceKeepsSecond MemoOrganizer.natKey
      ∧ UpsertTwiceKeepsSecond MemoRelation.natKey :=
  ⟨upsertTwice _, upsertTwice _, upsertTwice _, upsertTwice _, upsertTwice _⟩

/-- C6 witness: two upserts of the setting `locale` with different values, on a table
that already holds another setting, leave one `locale` row with the second value. -/
theorem C6_upsert_twice_one_row_witness :
    upsert SystemSetting.natKey ⟨"locale", "fr", ""⟩
        (upsert SystemSetting.natKey ⟨"locale", "en", ""⟩ [⟨"theme", "dark", ""⟩])
      = [⟨"theme", "dark", ""⟩, ⟨"locale", "fr", ""⟩]
    ∧ rowsWithKey SystemSetting.natKey "locale"
        (upsert SystemSetting.natKey ⟨"locale", "fr", ""⟩
          (upsert SystemSetting.natKey ⟨"locale", "en", ""⟩ [⟨"theme", "dark", ""⟩]))
      = [⟨"locale", "fr", ""⟩] :=
  ⟨by decide,
    (C6_upsert_twice_one_row.1 [⟨"theme", "dark", ""⟩] ⟨"locale", "en", ""⟩
      ⟨"locale", "fr", ""⟩ (by decide) rfl).1⟩

end Store
end Memos
